import Mathlib

/-!
Package hasty: binding named regexp captures to struct fields

A shallow embedding of `parse.go` (package `hasty`).

* Byte strings (`[]byte`, and Go `string`, which is a byte string too) are lists of
  byte values (`Bytes`); a byte is a natural number.
* `reflect.Type` is a first-order descriptor (`GoType`, `StructType`); the method set
  that matters (`encoding.TextUnmarshaler`) is two flags on the descriptor, and the
  method body itself is supplied by the environment `Env`.
* The struct behind the target pointer is the list of its field values in declaration
  order; `reflect.Value.Field(i)` is list indexing, the `Set...` methods are `List.set`.
* `*regexp.Regexp` is the pair of `SubexpNames()` and `FindSubmatch`, together with the
  guarantee of package `regexp` that a match has one slot per subexpression name.
* `parserCache` is passed explicitly: `Parse` takes the cache and returns the new one.
* `strconv.ParseInt` / `strconv.ParseUint` are transcribed from the Go standard library.
-/

namespace Hasty

/-! ## Bytes -/

/-- A byte string: a `[]byte` or a Go `string`, one natural number per byte. -/
abbrev Bytes := List Nat

/-- The bytes of an ASCII string constant. -/
def ascii (s : String) : Bytes := s.toList.map Char.toNat

/-! ## Package `strconv` -/

/-- The `Err` field of a `*strconv.NumError`. -/
inductive NumError where
  | ErrSyntax
  | ErrRange
  | ErrBase
  | ErrBitSize
  deriving DecidableEq, Repr

/-- Function `lower(c)` of `strconv`: `c | ('x' - 'X')`. -/
def lower (c : Nat) : Nat := c ||| 32

/-- The digit a byte stands for in `ParseUint`, before the comparison with the base:
`'0'..'9'` give 0..9, letters give 10..35, any other byte is a syntax error. -/
def digitVal (c : Nat) : Option Nat :=
  if 48 ≤ c ∧ c ≤ 57 then some (c - 48)
  else if 97 ≤ lower c ∧ lower c ≤ 122 then some (lower c - 97 + 10)
  else none

/-- Constant `maxUint64` of `strconv`. -/
def maxUint64 : Nat := 18446744073709551615

/-- The digit loop of `strconv.ParseUint`; `n` is the `uint64` accumulator. -/
def ParseUintLoop (base maxVal cutoff : Nat) : Bytes → Nat → Nat × Option NumError
  | [], n => (n, none)
  | c :: cs, n =>
    match digitVal c with
    | none => (0, some .ErrSyntax)
    | some d =>
      if d ≥ base then (0, some .ErrSyntax)
      else if n ≥ cutoff then (maxVal, some .ErrRange)
      else
        let n0 := n * base
        let n1 := (n0 + d) % (maxUint64 + 1)
        if n1 < n0 ∨ n1 > maxVal then (maxVal, some .ErrRange)
        else ParseUintLoop base maxVal cutoff cs n1

/-- Function `strconv.ParseUint(s, base, bitSize)` for `2 ≤ base ≤ 36` and
`1 ≤ bitSize ≤ 64`. Base 0 (prefix detection, underscores) and bit size 0 (the platform
size) are not modelled and reported as the base and bit-size errors: `parse.go` always
passes base 10 and bit size 64. The result is the pair `(value, err)`. -/
def ParseUint (s : Bytes) (base bitSize : Nat) : Nat × Option NumError :=
  if s = [] then (0, some .ErrSyntax)
  else if ¬ (2 ≤ base ∧ base ≤ 36) then (0, some .ErrBase)
  else if bitSize = 0 ∨ bitSize > 64 then (0, some .ErrBitSize)
  else
    let cutoff := maxUint64 / base + 1
    let maxVal := 2 ^ bitSize - 1
    ParseUintLoop base maxVal cutoff s 0

/-- Conversion `int64(x)` of an integer: wrap into `[-2^63, 2^63 - 1]`. -/
def toInt64 (x : Int) : Int :=
  (x + 9223372036854775808) % 18446744073709551616 - 9223372036854775808

/-- Function `strconv.ParseInt(s, base, bitSize)`, same restrictions as `ParseUint`. -/
def ParseInt (s : Bytes) (base bitSize : Nat) : Int × Option NumError :=
  match s with
  | [] => (0, some .ErrSyntax)
  | c :: cs =>
    let neg : Bool := decide (c = 45)
    let s1 := if c = 43 ∨ c = 45 then cs else c :: cs
    let un := (ParseUint s1 base bitSize).1
    let err := (ParseUint s1 base bitSize).2
    if err ≠ none ∧ err ≠ some .ErrRange then (0, err)
    else
      let cutoff := 2 ^ (bitSize - 1)
      if neg = false ∧ un ≥ cutoff then (((cutoff - 1 : Nat) : Int), some .ErrRange)
      else if neg = true ∧ un > cutoff then (-(cutoff : Int), some .ErrRange)
      else
        let n := toInt64 un
        (if neg then toInt64 (-n) else n, none)

/-! ## Package `reflect`: types -/

/-- Type `reflect.Kind`. -/
inductive Kind where
  | Invalid | Bool
  | Int | Int8 | Int16 | Int32 | Int64
  | Uint | Uint8 | Uint16 | Uint32 | Uint64 | Uintptr
  | Float32 | Float64 | Complex64 | Complex128
  | Array | Chan | Func | Interface | Map | Ptr | Slice | String | Struct
  | UnsafePointer
  deriving DecidableEq, Repr

/-- The size of `int` and `uint` on the platform the program is compiled for. -/
inductive WordSize where
  | w32
  | w64
  deriving DecidableEq, Repr

/-- Constant `strconv.IntSize`. -/
def WordSize.IntSize : WordSize → Nat
  | .w32 => 32
  | .w64 => 64

/-- A `reflect.Type` as far as `parse.go` looks at it. -/
structure GoType where
  /-- What `Type.String()` returns, printed by the `%s` verb. -/
  name : String
  /-- Method `Type.Kind()`. -/
  kind : Kind
  /-- The value of `Type.Elem().Kind()`, for a slice type. -/
  elemKind : Kind
  /-- The value of `Type.Implements(textUnmarshalerType)`. -/
  implementsTU : Bool
  /-- The value of `reflect.PtrTo(Type).Implements(textUnmarshalerType)`. -/
  ptrImplementsTU : Bool
  deriving DecidableEq, Repr

/-- A `reflect.StructField` (`Typ` is its field `Type`): `PkgPath` is empty exactly for
exported fields. -/
structure StructField where
  Name : String
  PkgPath : String
  Typ : GoType
  deriving DecidableEq, Repr

/-- A `reflect.Type` of kind `Struct`: `NumField()` is `fields.length`, `Field(i)` is
`fields[i]`. Equality of descriptors stands for identity of the type. -/
structure StructType where
  name : String
  fields : List StructField
  deriving DecidableEq, Repr

/-- Method `Type.Bits()` for the sized integer kinds (it panics on the other kinds, for
which the model returns 0; `parse.go` calls it on integer kinds only). -/
def Kind.Bits (w : WordSize) : Kind → Nat
  | .Int | .Uint | .Uintptr => w.IntSize
  | .Int8 | .Uint8 => 8
  | .Int16 | .Uint16 => 16
  | .Int32 | .Uint32 | .Float32 => 32
  | .Int64 | .Uint64 | .Float64 | .Complex64 => 64
  | .Complex128 => 128
  | _ => 0

/-! ## Package `reflect`: values -/

/-- The value held by one field of the target struct. -/
inductive Value where
  /-- A `[]byte` (the nil slice and the empty slice are not told apart). -/
  | bytes (b : Bytes)
  /-- A value of kind `String`. -/
  | str (s : Bytes)
  /-- A value of a signed integer kind. -/
  | int (n : Int)
  /-- A value of an unsigned integer kind. -/
  | uint (n : Nat)
  /-- A value of any other type, by an encoding the environment chooses. -/
  | other (payload : List Nat)
  deriving DecidableEq, Repr

/-- What the `interface{}` argument `v` of `Parse` holds. -/
inductive AnyValue where
  /-- The nil interface: `reflect.ValueOf` gives the zero `Value`. -/
  | invalid
  /-- A value that is neither a pointer nor a struct. -/
  | basic (k : Kind)
  /-- A struct value with its fields in declaration order. -/
  | struct (rt : StructType) (fields : List Value)
  /-- A nil pointer. -/
  | nilPtr
  /-- A non-nil pointer and what it points to. -/
  | ptr (elem : AnyValue)
  deriving DecidableEq, Repr

/-- Method `Value.Kind()`. -/
def AnyValue.Kind : AnyValue → Kind
  | .invalid => .Invalid
  | .basic k => k
  | .struct _ _ => .Struct
  | .nilPtr => .Ptr
  | .ptr _ => .Ptr

/-- Method `Value.Elem()` of a pointer: the zero `Value` for a nil pointer. -/
def AnyValue.Elem : AnyValue → AnyValue
  | .ptr e => e
  | _ => .invalid

/-- The field values of the struct a target points to (empty when it points to none). -/
def AnyValue.fields : AnyValue → List Value
  | .ptr (.struct _ fs) => fs
  | _ => []

/-- Width conversion done by `Value.SetInt`: `int8(x)`, `int16(x)`, ... -/
def wrapInt (bits : Nat) (x : Int) : Int :=
  (x + 2 ^ (bits - 1)) % 2 ^ bits - 2 ^ (bits - 1)

/-- Width conversion done by `Value.SetUint`: `uint8(x)`, `uint16(x)`, ... -/
def wrapUint (bits : Nat) (x : Nat) : Nat := x % 2 ^ bits

/-! ## Package `regexp` -/

/-- A compiled `*regexp.Regexp`, as the binder sees it. -/
structure Regexp where
  /-- Method `SubexpNames()`: slot 0 is the whole match, unnamed groups have name `""`. -/
  SubexpNames : List String
  /-- Method `FindSubmatch(data)`: `none` is the nil result of no match. -/
  FindSubmatch : Bytes → Option (List Bytes)
  /-- Package `regexp` returns one slot per subexpression name. -/
  aligned : ∀ data ms, FindSubmatch data = some ms → ms.length = SubexpNames.length

/-- A regexp given by its subexpression names and its matching function; a result of
the function that has not one slot per name counts as no match. -/
def Regexp.ofFun (names : List String) (f : Bytes → Option (List Bytes)) :
    Regexp where
  SubexpNames := names
  FindSubmatch := fun d =>
    match f d with
    | some ms => if ms.length = names.length then some ms else none
    | none => none
  aligned := by
    intro d ms h
    cases hf : f d with
    | none => simp [hf] at h
    | some ms1 =>
      simp only [hf] at h
      split at h
      · cases h; assumption
      · cases h

/-! ## Errors and outcomes -/

/-- The errors `Parse` returns, one constructor per message of `parse.go`. -/
inductive Err where
  /-- Message `hasty: Parse requires pointer target`. -/
  | requiresPointer
  /-- Message `hasty: Parse target must be a pointer to struct value`. -/
  | notPointerToStruct
  /-- Message `hasty: provided regular expression did not match data`. -/
  | noMatch
  /-- Message `hasty: unsupported type: %s`. -/
  | unsupportedType (typ : String)
  /-- Message `hasty: no target field for capture group %q`. -/
  | noTargetField (name : String)
  /-- Message `hasty: %s.UnmarshalText returned error: %s`. -/
  | unmarshalText (name : String) (cause : String)
  /-- Message `hasty: cannot parse %q as integer`. -/
  | cannotParseInteger (text : Bytes)
  /-- Message `hasty: cannot parse %q as unsigned integer`. -/
  | cannotParseUnsigned (text : Bytes)
  /-- Message `hasty: cannot represent %d as %s`. -/
  | cannotRepresent (n : Int) (typ : String)
  deriving DecidableEq, Repr

/-- Variable `ErrNoMatch`. -/
def ErrNoMatch : Err := .noMatch

/-- How a call ends: it returns nil, returns an error, or panics. -/
inductive Result where
  | ok
  | err (e : Err)
  /-- A run-time panic of the Go runtime or of package `reflect`. -/
  | runtimePanic (msg : String)
  /-- The call `panic(err)` of `MustParse`. -/
  | panicErr (e : Err)
  deriving DecidableEq, Repr

/-- What the program's environment provides. -/
structure Env where
  /-- The platform's word size. -/
  word : WordSize
  /-- Method `UnmarshalText` of the types that have it: from the receiver's value and the
  text, the receiver's value afterwards and the error returned (`none` for nil). -/
  UnmarshalText : GoType → Value → Bytes → Value × Option String

/-! ## The binding plan (`parser`, `newParser`) -/

/-- Type `unmarshalerType`. -/
inductive unmarshalerType where
  | notUnmarshaler
  | unmarshalerVal
  | unmarshalerPtr
  deriving DecidableEq, Repr

/-- Type `fieldParser`; `typ` is `none` for the nil `reflect.Type` that the fields using
`UnmarshalText` keep. -/
structure fieldParser where
  i : Nat
  utyp : unmarshalerType
  typ : Option GoType
  deriving DecidableEq, Repr

/-- Type `parser`: the map `byName` is an association list, read with `List.lookup`;
the assignment `p.byName[k] = fp` puts the new entry in front, where it hides an older
entry for the same key. -/
structure parser where
  byName : List (String × fieldParser)
  deriving DecidableEq, Repr

/-- The body of the loop of `newParser` for one exported field: the `fieldParser` the
iteration leaves in the map, or the error it returns. In the source the entry is put
into the map first and completed through the pointer `fp`; an error discards the map. -/
def newFieldParser (i : Nat) (field : StructField) : Except Err fieldParser :=
  if field.Typ.implementsTU then
    .ok { i := i, utyp := .unmarshalerVal, typ := none }
  else if field.Typ.ptrImplementsTU then
    .ok { i := i, utyp := .unmarshalerPtr, typ := none }
  else
    match field.Typ.kind with
    | .Slice =>
      if field.Typ.elemKind ≠ .Uint8 then .error (.unsupportedType field.Typ.name)
      else .ok { i := i, utyp := .notUnmarshaler, typ := some field.Typ }
    | .String
    | .Int | .Int8 | .Int16 | .Int32 | .Int64
    | .Uint | .Uint8 | .Uint16 | .Uint32 | .Uint64 =>
      .ok { i := i, utyp := .notUnmarshaler, typ := some field.Typ }
    | _ => .error (.unsupportedType field.Typ.name)

/-- The loop `for i := 0; i < rt.NumField(); i++` of `newParser`, from index `i` on,
`fields` being the fields not yet visited and `p` the plan built so far. -/
def newParserLoop : List StructField → Nat → parser → Except Err parser
  | [], _, p => .ok p
  | field :: rest, i, p =>
    if field.PkgPath ≠ "" then newParserLoop rest (i + 1) p
    else
      match newFieldParser i field with
      | .error e => .error e
      | .ok fp => newParserLoop rest (i + 1) { byName := (field.Name, fp) :: p.byName }

/-- Function `newParser`. -/
def newParser (rt : StructType) : Except Err parser :=
  newParserLoop rt.fields 0 { byName := [] }

/-! ## The binder (`parser.parse`) -/

/-- Variable `minMaxIntVals`; a key that is not in the map gives the zero value. -/
def minMaxIntVals : Nat → Int × Int
  | 8 => (-128, 127)
  | 16 => (-32768, 32767)
  | 32 => (-2147483648, 2147483647)
  | 64 => (-9223372036854775808, 9223372036854775807)
  | _ => (0, 0)

/-- Variable `maxUintVals`; a key that is not in the map gives the zero value. -/
def maxUintVals : Nat → Nat
  | 8 => 255
  | 16 => 65535
  | 32 => 4294967295
  | 64 => 18446744073709551615
  | _ => 0

/-- Method `Value.SetBytes` on a field of type `t`: `none` is its panic. -/
def SetBytes (t : GoType) (x : Bytes) : Option Value :=
  if t.kind = .Slice ∧ t.elemKind = .Uint8 then some (.bytes x) else none

/-- Method `Value.SetString` on a field of type `t`: `none` is its panic. -/
def SetString (t : GoType) (x : Bytes) : Option Value :=
  if t.kind = .String then some (.str x) else none

/-- Method `Value.SetInt` on a field of type `t`: the value is converted to the field's
width; `none` is its panic. -/
def SetInt (w : WordSize) (t : GoType) (x : Int) : Option Value :=
  match t.kind with
  | .Int | .Int8 | .Int16 | .Int32 | .Int64 => some (.int (wrapInt (t.kind.Bits w) x))
  | _ => none

/-- Method `Value.SetUint` on a field of type `t`: the value is converted to the field's
width; `none` is its panic. -/
def SetUint (w : WordSize) (t : GoType) (x : Nat) : Option Value :=
  match t.kind with
  | .Uint | .Uint8 | .Uint16 | .Uint32 | .Uint64 | .Uintptr =>
    some (.uint (wrapUint (t.kind.Bits w) x))
  | _ => none

/-- Store the result of a `Set...` call in field `i`, or panic. -/
def store (rv : List Value) (i : Nat) : Option Value → Result × List Value
  | some x => (.ok, rv.set i x)
  | none => (.runtimePanic "reflect: call of Set on a Value of another kind", rv)

/-- One iteration of the loop of `parser.parse`: capture `name` with text `m` is applied
to the struct of type `rt` with field values `rv`. The result `.ok` stands for reaching
the end of the body (or its `continue`), anything else for leaving `parse`. -/
def parser.parseMatch (E : Env) (p : parser) (rt : StructType) (rv : List Value)
    (name : String) (m : Bytes) : Result × List Value :=
  match p.byName.lookup name with
  | none => (.err (.noTargetField name), rv)
  | some fp =>
    match rt.fields[fp.i]?, rv[fp.i]? with
    | some sf, some field =>
      if fp.utyp ≠ .notUnmarshaler then
        match fp.utyp with
        | .unmarshalerVal =>
          -- the receiver is the copy `field.Interface()` holds
          match (E.UnmarshalText sf.Typ field m).2 with
          | some e => (.err (.unmarshalText name e), rv)
          | none => (.ok, rv)
        | _ =>
          -- the receiver is `field.Addr()`: the method works on the field itself
          match E.UnmarshalText sf.Typ field m with
          | (field1, some e) => (.err (.unmarshalText name e), rv.set fp.i field1)
          | (field1, none) => (.ok, rv.set fp.i field1)
      else
        match fp.typ with
        | none => (.runtimePanic "invalid memory address or nil pointer dereference", rv)
        | some typ =>
          match typ.kind with
          | .Slice => store rv fp.i (SetBytes sf.Typ m)
          | .String => store rv fp.i (SetString sf.Typ m)
          | .Int | .Int8 | .Int16 | .Int32 | .Int64 =>
            let n := (ParseInt m 10 64).1
            let err := (ParseInt m 10 64).2
            if err ≠ none then (.err (.cannotParseInteger m), rv)
            else
              let minMax := minMaxIntVals (typ.kind.Bits E.word)
              if n < minMax.1 ∨ n > minMax.2 then (.err (.cannotRepresent n typ.name), rv)
              else store rv fp.i (SetInt E.word sf.Typ n)
          | .Uint | .Uint8 | .Uint16 | .Uint32 | .Uint64 =>
            let n := (ParseUint m 10 64).1
            let err := (ParseUint m 10 64).2
            if err ≠ none then (.err (.cannotParseUnsigned m), rv)
            else
              let max := maxUintVals (typ.kind.Bits E.word)
              if n > max then (.err (.cannotRepresent (n : Int) typ.name), rv)
              else store rv fp.i (SetUint E.word sf.Typ n)
          | _ => (.ok, rv)
    | _, _ => (.runtimePanic "reflect: Field index out of range", rv)

/-- The loop `for i := 1; i < len(matches); i++` of `parser.parse`, from index `i` on,
`rest` being `matches[i:]`. -/
def parser.parseLoop (E : Env) (p : parser) (rt : StructType) (names : List String) :
    Nat → List Bytes → List Value → Result × List Value
  | _, [], rv => (.ok, rv)
  | i, m :: rest, rv =>
    match names[i]? with
    | none => (.runtimePanic "index out of range", rv)
    | some name =>
      match p.parseMatch E rt rv name m with
      | (.ok, rv1) => parser.parseLoop E p rt names (i + 1) rest rv1
      | out => out

/-- Method `(p *parser) parse(data, rv, r)`; the struct `rv` is its type `rt` and its
field values. Returns the outcome and the field values afterwards. -/
def parser.parse (E : Env) (p : parser) (data : Bytes) (rt : StructType)
    (rv : List Value) (r : Regexp) : Result × List Value :=
  match r.FindSubmatch data with
  | none => (.err ErrNoMatch, rv)
  | some ms => p.parseLoop E rt r.SubexpNames 1 (ms.drop 1) rv

/-! ## `Parse`, `MustParse` and the plan cache -/

/-- Variable `parserCache`, a `sync.Map` from struct types to plans. -/
abbrev Cache := List (StructType × parser)

/-- Method `sync.Map.Load`. -/
def Cache.Load (c : Cache) (rt : StructType) : Option parser := c.lookup rt

/-- Method `sync.Map.LoadOrStore`: an entry that exists is kept. -/
def Cache.LoadOrStore (c : Cache) (rt : StructType) (p : parser) : Cache :=
  match c.lookup rt with
  | some _ => c
  | none => (rt, p) :: c

/-- Function `Parse`: the outcome, what `v` holds afterwards, and the cache afterwards.
The test `rv.Kind() != reflect.Struct` is the match on the pointer's element. -/
def Parse (E : Env) (cache : Cache) (data : Bytes) (v : AnyValue) (r : Regexp) :
    Result × AnyValue × Cache :=
  if v.Kind ≠ .Ptr then (.err .requiresPointer, v, cache)
  else
    match v.Elem with
    | .struct rt rv =>
      match cache.Load rt with
      | some p =>
        let out := p.parse E data rt rv r
        (out.1, .ptr (.struct rt out.2), cache)
      | none =>
        match newParser rt with
        | .error e => (.err e, v, cache)
        | .ok p =>
          let out := p.parse E data rt rv r
          (out.1, .ptr (.struct rt out.2), cache.LoadOrStore rt p)
    | _ => (.err .notPointerToStruct, v, cache)

/-- Function `MustParse`. -/
def MustParse (E : Env) (cache : Cache) (data : Bytes) (v : AnyValue) (r : Regexp) :
    Result × AnyValue × Cache :=
  match Parse E cache data v r with
  | (.err e, v1, c1) => (.panicErr e, v1, c1)
  | out => out

/-! ## Decimal literals (the specification's side) -/

/-- An ASCII decimal digit. -/
def isDigit (c : Nat) : Bool := decide (48 ≤ c ∧ c ≤ 57)

/-- The number a digit string denotes in base 10, continuing from `n`. -/
def decimalFrom (n : Nat) (s : Bytes) : Nat := s.foldl (fun a c => a * 10 + (c - 48)) n

/-- The number a digit string denotes in base 10. -/
def decimalValue (s : Bytes) : Nat := decimalFrom 0 s

/-- A base-10 unsigned literal: one or more decimal digits. -/
def isUintLiteral (s : Bytes) : Bool := s ≠ [] && s.all isDigit

/-- A base-10 integer literal as `strconv.ParseInt` reads it: an optional sign `+` or
`-`, then one or more decimal digits. -/
def isIntLiteral : Bytes → Bool
  | [] => false
  | c :: cs => if c = 43 ∨ c = 45 then isUintLiteral cs else isUintLiteral (c :: cs)

/-- A base-10 integer literal in the grammar of the specification: an optional `-`, then
one or more decimal digits. -/
def isMinusLiteral : Bytes → Bool
  | [] => false
  | c :: cs => if c = 45 then isUintLiteral cs else isUintLiteral (c :: cs)

/-- The value of an integer literal. -/
def intLiteralValue : Bytes → Int
  | [] => 0
  | c :: cs =>
    if c = 45 then -(decimalValue cs : Int)
    else if c = 43 then (decimalValue cs : Int)
    else (decimalValue (c :: cs) : Int)

/-! ## Struct types (the specification's side) -/

/-- The signed integer kinds. -/
def isSignedInt : Kind → Bool
  | .Int | .Int8 | .Int16 | .Int32 | .Int64 => true
  | _ => false

/-- The unsigned integer kinds the plan builder accepts. -/
def isUnsignedInt : Kind → Bool
  | .Uint | .Uint8 | .Uint16 | .Uint32 | .Uint64 => true
  | _ => false

/-- The field types a plan can be built for: the type has the text-decoding capability,
by value or through a pointer, or it is a byte slice, a string, or of an integer kind. -/
def GoType.supported (t : GoType) : Bool :=
  t.implementsTU || t.ptrImplementsTU ||
    (t.kind == .Slice && t.elemKind == .Uint8) || t.kind == .String ||
    isSignedInt t.kind || isUnsignedInt t.kind

/-- The field is exported. -/
def StructField.exported (f : StructField) : Bool := f.PkgPath == ""

/-- The names of the exported fields, in declaration order. -/
def exportedNames (fields : List StructField) : List String :=
  (fields.filter StructField.exported).map StructField.Name

/-- The names of the exported fields are pairwise distinct, as in every struct type of Go:
the language rejects a struct type with two fields of one name. -/
def StructType.WF (rt : StructType) : Prop := (exportedNames rt.fields).Nodup

instance (rt : StructType) : Decidable rt.WF := by unfold StructType.WF; infer_instance

/-! ## Matches and cache states (the specification's side) -/

/-- The match set of a regexp on an input: the `(label, matched bytes)` pairs of the
capture groups in the order of the groups, without slot 0, the whole match. -/
def Regexp.captures (r : Regexp) (data : Bytes) : Option (List (String × Bytes)) :=
  (r.FindSubmatch data).map (fun ms => (r.SubexpNames.zip ms).drop 1)

/-- The loop of `parser.parse` told over the match set: the captures are applied in
order until one does not end with `.ok`. -/
def parser.parseCaptures (E : Env) (p : parser) (rt : StructType) :
    List (String × Bytes) → List Value → Result × List Value
  | [], rv => (.ok, rv)
  | c :: rest, rv =>
    match p.parseMatch E rt rv c.1 c.2 with
    | (.ok, rv1) => parser.parseCaptures E p rt rest rv1
    | out => out

/-- The plan cache holds, under a struct type, only the plan `newParser` builds for it. -/
def CacheInv (c : Cache) : Prop := ∀ rt p, c.Load rt = some p → newParser rt = .ok p

/-- The value an integer `v` is as the content of a field of kind `k`. -/
def integerValue (k : Kind) (v : Int) : Value :=
  if isSignedInt k then .int v else .uint v.toNat

/-! ## The types, patterns and inputs of `parse_test.go` and of the examples -/

/-- A type without methods and without element type. -/
def plainType (name : String) (kind : Kind) : GoType :=
  { name := name, kind := kind, elemKind := .Invalid, implementsTU := false,
    ptrImplementsTU := false }

/-- Type `[]byte`. -/
def bytesType : GoType :=
  { name := "[]uint8", kind := .Slice, elemKind := .Uint8, implementsTU := false,
    ptrImplementsTU := false }

/-- An exported field. -/
def exportedField (name : String) (t : GoType) : StructField :=
  { Name := name, PkgPath := "", Typ := t }

/-- Type `stringInt` of `TestParse`: `S string; x string; I int`. -/
def stringInt : StructType :=
  { name := "hasty.stringInt",
    fields := [exportedField "S" (plainType "string" .String),
      { Name := "x", PkgPath := "github.com/cespare/hasty", Typ := plainType "string" .String },
      exportedField "I" (plainType "int" .Int)] }

/-- Type `ints` of `TestParse`: `I int; I8 int8; I16 int16; I32 int32; I64 int64`. -/
def ints : StructType :=
  { name := "hasty.ints",
    fields := [exportedField "I" (plainType "int" .Int),
      exportedField "I8" (plainType "int8" .Int8),
      exportedField "I16" (plainType "int16" .Int16),
      exportedField "I32" (plainType "int32" .Int32),
      exportedField "I64" (plainType "int64" .Int64)] }

/-- Type `stringBytes` of `TestParse`: `S myString; B []byte`. -/
def stringBytes : StructType :=
  { name := "hasty.stringBytes",
    fields := [exportedField "S" (plainType "hasty.myString" .String),
      exportedField "B" bytesType] }

/-- A struct type with the one exported field `N` of type `t`. -/
def oneField (t : GoType) : StructType :=
  { name := "struct \x7b N " ++ t.name ++ " \x7d", fields := [exportedField "N" t] }

/-- A regexp as far as its match on one input is told: `groups` are the slots of
`FindSubmatch(input)`; on any other input the model reports no match. -/
def Regexp.onInput (names : List String) (input : Bytes) (groups : List Bytes) : Regexp :=
  Regexp.ofFun names (fun d => if d = input then some groups else none)

/-- A regexp with the one capture group `(?P<N>...)`, as far as its match on the one
input that is the group's text goes. -/
def oneGroup (text : Bytes) : Regexp := Regexp.onInput ["", "N"] text [text, text]

/-- Pattern `^\[(?P<S>\w+), (?P<I>\d+)\]$` on `[foo, 3]`. -/
def reStringInt : Regexp :=
  Regexp.onInput ["", "S", "I"] (ascii "[foo, 3]") [ascii "[foo, 3]", ascii "foo", ascii "3"]

/-- Pattern `^(?P<S>\w+) (?P<B>\w+)$` on `hello world`. -/
def reStringBytes : Regexp :=
  Regexp.onInput ["", "S", "B"] (ascii "hello world")
    [ascii "hello world", ascii "hello", ascii "world"]

/-- Pattern `^(?P<S>\w) (.) (?P<I>\d)$` on `a b 1`. -/
def reUnnamed : Regexp :=
  Regexp.onInput ["", "S", "", "I"] (ascii "a b 1")
    [ascii "a b 1", ascii "a", ascii "b", ascii "1"]

/-- A 64-bit platform on which no type in use has an `UnmarshalText` method. -/
def env64 : Env := { word := .w64, UnmarshalText := fun _ v _ => (v, none) }

/-- Pattern `^(?P<S>\w+) (?P<x>\w+)$` on `foo bar`: the second group has the name of the
unexported field of `stringInt`. -/
def reUnexported : Regexp :=
  Regexp.onInput ["", "S", "x"] (ascii "foo bar") [ascii "foo bar", ascii "foo", ascii "bar"]

/-- A struct type `S string; F float64`. -/
def stringFloat : StructType :=
  { name := "struct \x7b S string; F float64 \x7d",
    fields := [exportedField "S" (plainType "string" .String),
      exportedField "F" (plainType "float64" .Float64)] }

/-- Pattern `^(?P<S>\w+)$` on `abc`. -/
def reOnlyS : Regexp := Regexp.onInput ["", "S"] (ascii "abc") [ascii "abc", ascii "abc"]

/-- Pattern `^(?P<I>-?\d+), (?P<I8>-?\d+), (?P<I16>-?\d+), (?P<I32>-?\d+), (?P<I64>-?\d+)$`
on `-1, -2, -3, -4, -5`. -/
def reInts : Regexp :=
  Regexp.onInput ["", "I", "I8", "I16", "I32", "I64"] (ascii "-1, -2, -3, -4, -5")
    [ascii "-1, -2, -3, -4, -5", ascii "-1", ascii "-2", ascii "-3", ascii "-4", ascii "-5"]

/-! ## The text-decoding capability (the specification's side) -/

/-- The outcome of one capture on a field that uses `UnmarshalText`, from the error the
method returns: the conversion-failed error with the capture label and the cause. -/
def decodeResult (name : String) : Option String → Result
  | some cause => .err (.unmarshalText name cause)
  | none => .ok

/-- Type `time.Time`: its method `UnmarshalText` has a pointer receiver. -/
def timeType : GoType :=
  { name := "time.Time", kind := .Struct, elemKind := .Invalid, implementsTU := false,
    ptrImplementsTU := true }

/-- The value `time.Date(year, month, day, hour, min, sec, 0, time.UTC)`. -/
def timeDate (year month day hour min sec : Nat) : Value :=
  .other [year, month, day, hour, min, sec, 0]

/-- The zero `time.Time`, January 1 of year 1, 00:00:00 UTC. -/
def zeroTime : Value := timeDate 1 1 1 0 0 0

/-- The two-digit number of two bytes, when both are decimal digits. -/
def twoDigits (a b : Nat) : Option Nat :=
  if isDigit a && isDigit b then some ((a - 48) * 10 + (b - 48)) else none

/-- Method `(*time.Time).UnmarshalText` on the form `YYYY-MM-DDTHH:MM:SSZ` of RFC 3339:
the new value of the receiver and the error. As in package `time` the receiver is
assigned on failure too, the zero time. The other forms of RFC 3339 (fractional seconds,
numeric zone offsets) and the lengths of the months are not modelled: such texts are
reported as errors. -/
def timeUnmarshalText (text : Bytes) : Value × Option String :=
  match text with
  | [y1, y2, y3, y4, 45, m1, m2, 45, d1, d2, 84, h1, h2, 58, n1, n2, 58, s1, s2, 90] =>
    match twoDigits y1 y2, twoDigits y3 y4, twoDigits m1 m2, twoDigits d1 d2,
      twoDigits h1 h2, twoDigits n1 n2, twoDigits s1 s2 with
    | some yh, some yl, some mo, some d, some h, some mi, some s =>
      if 1 ≤ mo ∧ mo ≤ 12 ∧ 1 ≤ d ∧ d ≤ 31 ∧ h < 24 ∧ mi < 60 ∧ s < 60 then
        (timeDate (yh * 100 + yl) mo d h mi s, none)
      else (zeroTime, some "parsing time: out of range")
    | _, _, _, _, _, _, _ => (zeroTime, some "parsing time: cannot parse")
  | _ => (zeroTime, some "parsing time: cannot parse")

/-- A type of kind `Int` with a method `UnmarshalText` on the value receiver, such as
`type level int` with `func (l level) UnmarshalText(b []byte) error`: the method is in
the method set of the type and of the pointer to it. -/
def levelType : GoType :=
  { name := "hasty.level", kind := .Int, elemKind := .Invalid, implementsTU := true,
    ptrImplementsTU := true }

/-- A 64-bit platform with `time.Time` and the type `level`, whose method accepts every
text and would leave 7 in its receiver. -/
def envTime : Env :=
  { word := .w64,
    UnmarshalText := fun t v text =>
      if t.name = "time.Time" then timeUnmarshalText text
      else if t.name = "hasty.level" then (.int 7, none)
      else (v, none) }

/-- Type `unmarshaler` of `TestParse`: `S string; T time.Time`. -/
def unmarshaler : StructType :=
  { name := "hasty.unmarshaler",
    fields := [exportedField "S" (plainType "string" .String), exportedField "T" timeType] }

/-- Pattern `^(?P<S>\w+)\s*=\s*(?P<T>.+)$` on `date = 2018-12-15T00:00:00Z`. -/
def reDate : Regexp :=
  Regexp.onInput ["", "S", "T"] (ascii "date = 2018-12-15T00:00:00Z")
    [ascii "date = 2018-12-15T00:00:00Z", ascii "date", ascii "2018-12-15T00:00:00Z"]

/-- Pattern `^(?P<S>\w+)\s*=\s*(?P<T>.+)$` on `date = tomorrow`. -/
def reTomorrow : Regexp :=
  Regexp.onInput ["", "S", "T"] (ascii "date = tomorrow")
    [ascii "date = tomorrow", ascii "date", ascii "tomorrow"]

/-! ## Reachable cache states (the specification's side) -/

/-- The states of the plan cache that calls of `Parse` reach from the empty cache. -/
inductive Reachable : Cache → Prop where
  | empty : Reachable []
  | call (E : Env) (cache : Cache) (data : Bytes) (v : AnyValue) (r : Regexp) :
      Reachable cache → Reachable (Parse E cache data v r).2.2

/-- The plan cache after `n` calls of `Parse` with the same input, target and pattern. -/
def cacheAfter (E : Env) (data : Bytes) (v : AnyValue) (r : Regexp) : Nat → Cache → Cache
  | 0, c => c
  | n + 1, c => cacheAfter E data v r n (Parse E c data v r).2.2

/-! # Theorems -/

/-! ## Package `strconv` -/

theorem le_decimalFrom (s : Bytes) (n : Nat) : n ≤ decimalFrom n s := by
  induction s generalizing n with
  | nil => simp [decimalFrom]
  | cons c cs ih =>
    have h := ih (n * 10 + (c - 48))
    simp only [decimalFrom, List.foldl_cons] at h ⊢
    omega

theorem digitVal_of_isDigit (c : Nat) (h : isDigit c = true) : digitVal c = some (c - 48) := by
  simp only [isDigit, decide_eq_true_eq] at h
  simp [digitVal, h]

theorem digitVal_of_not_isDigit (c : Nat) (h : isDigit c = false) :
    digitVal c = none ∨ ∃ d, 10 ≤ d ∧ digitVal c = some d := by
  simp only [isDigit, decide_eq_false_iff_not] at h
  unfold digitVal
  rw [if_neg h]
  split
  · exact Or.inr ⟨_, by omega, rfl⟩
  · exact Or.inl rfl

theorem ParseUintLoop_digits (cs : Bytes) (n : Nat) (hd : cs.all isDigit = true)
    (hn : n ≤ maxUint64) :
    ParseUintLoop 10 maxUint64 (maxUint64 / 10 + 1) cs n =
      if decimalFrom n cs ≤ maxUint64 then (decimalFrom n cs, none)
      else (maxUint64, some .ErrRange) := by
  induction cs generalizing n with
  | nil => simp [ParseUintLoop, decimalFrom, hn]
  | cons c cs ih =>
    rw [List.all_cons, Bool.and_eq_true] at hd
    obtain ⟨hc, hcs⟩ := hd
    have hdv := digitVal_of_isDigit c hc
    simp only [isDigit, decide_eq_true_eq] at hc
    have hmono := le_decimalFrom cs (n * 10 + (c - 48))
    have hstep : decimalFrom n (c :: cs) = decimalFrom (n * 10 + (c - 48)) cs := rfl
    rw [hstep]
    simp only [ParseUintLoop, hdv]
    simp only [maxUint64] at hn hmono ⊢
    have hlt : ¬ (c - 48 ≥ 10) := by omega
    rw [if_neg hlt]
    by_cases h1 : n ≥ 18446744073709551615 / 10 + 1
    · have hbig : ¬ decimalFrom (n * 10 + (c - 48)) cs ≤ 18446744073709551615 := by omega
      rw [if_pos h1, if_neg hbig]
    · rw [if_neg h1]
      by_cases h2 : n * 10 + (c - 48) ≤ 18446744073709551615
      · have hm : (n * 10 + (c - 48)) % (18446744073709551615 + 1) = n * 10 + (c - 48) :=
          Nat.mod_eq_of_lt (by omega)
        have hno : ¬ (n * 10 + (c - 48) < n * 10 ∨ n * 10 + (c - 48) > 18446744073709551615) := by
          omega
        rw [hm, if_neg hno]
        have := ih (n * 10 + (c - 48)) hcs (by simp only [maxUint64]; omega)
        simpa only [maxUint64] using this
      · have hwrap : (n * 10 + (c - 48)) % (18446744073709551615 + 1) < n * 10 ∨
            (n * 10 + (c - 48)) % (18446744073709551615 + 1) > 18446744073709551615 := by
          omega
        have hbig : ¬ decimalFrom (n * 10 + (c - 48)) cs ≤ 18446744073709551615 := by omega
        rw [if_pos hwrap, if_neg hbig]

theorem ParseUintLoop_not_digits (maxVal cutoff : Nat) (cs : Bytes) (n : Nat)
    (hd : cs.all isDigit = false) :
    ∃ v e, ParseUintLoop 10 maxVal cutoff cs n = (v, some e) ∧
      (e = .ErrRange → v = maxVal) := by
  induction cs generalizing n with
  | nil => simp at hd
  | cons c cs ih =>
    unfold ParseUintLoop
    cases hc : isDigit c with
    | false =>
      rcases digitVal_of_not_isDigit c hc with h | ⟨d, hd10, h⟩
      · rw [h]; exact ⟨_, _, rfl, by simp⟩
      · rw [h]
        have : d ≥ 10 := hd10
        simp only [this, if_true]
        exact ⟨_, _, rfl, by simp⟩
    | true =>
      rw [List.all_cons, hc, Bool.true_and] at hd
      rw [digitVal_of_isDigit c hc]
      simp only
      split
      · exact ⟨_, _, rfl, by simp⟩
      · split
        · exact ⟨_, _, rfl, fun _ => rfl⟩
        · split
          · exact ⟨_, _, rfl, fun _ => rfl⟩
          · exact ih _ hd

theorem ParseUint_literal (s : Bytes) (h : isUintLiteral s = true) :
    ParseUint s 10 64 =
      if decimalValue s ≤ maxUint64 then (decimalValue s, none)
      else (maxUint64, some .ErrRange) := by
  simp only [isUintLiteral, Bool.and_eq_true, decide_eq_true_eq] at h
  have hloop := ParseUintLoop_digits s 0 h.2 (Nat.zero_le _)
  unfold ParseUint
  rw [if_neg h.1]
  have h64 : (2 : Nat) ^ 64 - 1 = maxUint64 := by decide
  simp only [h64]
  simpa [decimalValue] using hloop

theorem ParseUint_not_literal (s : Bytes) (h : isUintLiteral s = false) :
    ∃ v e, ParseUint s 10 64 = (v, some e) ∧ (e = .ErrRange → v = maxUint64) := by
  unfold ParseUint
  by_cases hs : s = []
  · rw [if_pos hs]; exact ⟨_, _, rfl, by simp⟩
  · rw [if_neg hs]
    have hd : s.all isDigit = false := by
      simp only [isUintLiteral, Bool.and_eq_false_iff, decide_eq_false_iff_not] at h
      rcases h with h | h
      · exact absurd h (by simpa using hs)
      · exact h
    simp only [show ¬ ¬ (2 ≤ 10 ∧ 10 ≤ 36) by decide, show ¬ ((64 : Nat) = 0 ∨ 64 > 64) by decide,
      if_false]
    have h64 : (2 : Nat) ^ 64 - 1 = maxUint64 := by decide
    rw [h64]
    exact ParseUintLoop_not_digits _ _ s 0 hd

theorem toInt64_of_lt (n : Nat) (h : n < 9223372036854775808) : toInt64 (n : Int) = n := by
  unfold toInt64
  omega

theorem toInt64_neg (n : Nat) (h : n ≤ 9223372036854775808) :
    toInt64 (-(toInt64 (n : Int))) = -(n : Int) := by
  unfold toInt64
  omega

/-- The sign handling of `ParseInt`, given what `ParseUint` returns on the digits. -/
theorem ParseInt_of_ParseUint (c : Nat) (cs s1 : Bytes) (un : Nat) (err : Option NumError)
    (hs1 : s1 = if c = 43 ∨ c = 45 then cs else c :: cs)
    (hu : ParseUint s1 10 64 = (un, err)) :
    ParseInt (c :: cs) 10 64 =
      if err ≠ none ∧ err ≠ some .ErrRange then (0, err)
      else if c ≠ 45 ∧ un ≥ 9223372036854775808 then (9223372036854775807, some .ErrRange)
      else if c = 45 ∧ un > 9223372036854775808 then (-9223372036854775808, some .ErrRange)
      else (if c = 45 then toInt64 (-(toInt64 (un : Int))) else toInt64 (un : Int), none) := by
  simp only [ParseInt, ← hs1, hu]
  by_cases h45 : c = 45 <;> simp [h45]

theorem isIntLiteral_cons (c : Nat) (cs : Bytes) :
    isIntLiteral (c :: cs) = isUintLiteral (if c = 43 ∨ c = 45 then cs else c :: cs) := by
  show (if c = 43 ∨ c = 45 then isUintLiteral cs else isUintLiteral (c :: cs)) = _
  split <;> rfl

theorem intLiteralValue_cons (c : Nat) (cs : Bytes) :
    intLiteralValue (c :: cs) =
      if c = 45 then -(decimalValue (if c = 43 ∨ c = 45 then cs else c :: cs) : Int)
      else (decimalValue (if c = 43 ∨ c = 45 then cs else c :: cs) : Int) := by
  unfold intLiteralValue
  by_cases h45 : c = 45
  · simp [h45]
  · by_cases h43 : c = 43
    · simp [h43]
    · simp [h45, h43]

theorem ParseInt_literal_inRange (s : Bytes) (h : isIntLiteral s = true)
    (hlo : -9223372036854775808 ≤ intLiteralValue s)
    (hhi : intLiteralValue s ≤ 9223372036854775807) :
    ParseInt s 10 64 = (intLiteralValue s, none) := by
  cases s with
  | nil => simp [isIntLiteral] at h
  | cons c cs =>
    rw [isIntLiteral_cons] at h
    rw [intLiteralValue_cons] at hlo hhi ⊢
    generalize hs1 : (if c = 43 ∨ c = 45 then cs else c :: cs) = s1 at h hlo hhi ⊢
    have hu := ParseUint_literal s1 h
    have hle : decimalValue s1 ≤ maxUint64 := by
      simp only [maxUint64]; split at hlo <;> omega
    rw [if_pos hle] at hu
    rw [ParseInt_of_ParseUint c cs s1 _ _ hs1.symm hu]
    by_cases h45 : c = 45
    · simp only [h45, if_true] at hlo hhi ⊢
      have hb : decimalValue s1 ≤ 9223372036854775808 := by omega
      simp [toInt64_neg _ hb, hb]
    · simp only [h45, if_false] at hlo hhi ⊢
      have hb : decimalValue s1 < 9223372036854775808 := by omega
      simp [toInt64_of_lt _ hb, hb]

theorem ParseInt_literal_outOfRange (s : Bytes) (h : isIntLiteral s = true)
    (hout : intLiteralValue s < -9223372036854775808 ∨ 9223372036854775807 < intLiteralValue s) :
    (ParseInt s 10 64).2 = some .ErrRange := by
  cases s with
  | nil => simp [isIntLiteral] at h
  | cons c cs =>
    rw [isIntLiteral_cons] at h
    rw [intLiteralValue_cons] at hout
    generalize hs1 : (if c = 43 ∨ c = 45 then cs else c :: cs) = s1 at h hout
    have hu := ParseUint_literal s1 h
    by_cases hle : decimalValue s1 ≤ maxUint64
    · rw [if_pos hle] at hu
      rw [ParseInt_of_ParseUint c cs s1 _ _ hs1.symm hu]
      by_cases h45 : c = 45
      · simp only [h45, if_true] at hout
        have hb : decimalValue s1 > 9223372036854775808 := by omega
        simp [h45, hb]
      · simp only [h45, if_false] at hout
        have hb : decimalValue s1 ≥ 9223372036854775808 := by omega
        simp [h45, hb]
    · rw [if_neg hle] at hu
      rw [ParseInt_of_ParseUint c cs s1 _ _ hs1.symm hu]
      by_cases h45 : c = 45 <;> simp [h45, maxUint64]

theorem ParseInt_not_literal (s : Bytes) (h : isIntLiteral s = false) :
    (ParseInt s 10 64).2 ≠ none := by
  cases s with
  | nil => simp [ParseInt]
  | cons c cs =>
    rw [isIntLiteral_cons] at h
    generalize hs1 : (if c = 43 ∨ c = 45 then cs else c :: cs) = s1 at h
    obtain ⟨v, e, hu, hmax⟩ := ParseUint_not_literal s1 h
    rw [ParseInt_of_ParseUint c cs s1 _ _ hs1.symm hu]
    by_cases he : e = .ErrRange
    · subst he
      have hv : v = maxUint64 := hmax rfl
      subst hv
      by_cases h45 : c = 45 <;> simp [h45, maxUint64]
    · simp [he]

/-! ## The plan builder -/

theorem newFieldParser_i (i : Nat) (f : StructField) (fp : fieldParser)
    (h : newFieldParser i f = .ok fp) : fp.i = i := by
  unfold newFieldParser at h
  split at h
  · cases h; rfl
  · split at h
    · cases h; rfl
    · split at h <;> first | (cases h; rfl) | (split at h <;> cases h; rfl) | cases h

theorem newFieldParser_of_unsupported (i : Nat) (f : StructField)
    (h : f.Typ.supported = false) :
    newFieldParser i f = .error (.unsupportedType f.Typ.name) := by
  unfold GoType.supported at h
  simp only [Bool.or_eq_false_iff, Bool.and_eq_false_iff] at h
  obtain ⟨⟨⟨⟨⟨h1, h2⟩, h3⟩, h4⟩, h5⟩, h6⟩ := h
  unfold newFieldParser
  rw [h1, h2]
  simp only [Bool.false_eq_true, if_false]
  cases hk : f.Typ.kind <;> simp_all [isSignedInt, isUnsignedInt]

theorem newFieldParser_of_supported (i : Nat) (f : StructField)
    (h : f.Typ.supported = true) : ∃ fp, newFieldParser i f = .ok fp := by
  unfold GoType.supported at h
  unfold newFieldParser
  by_cases h1 : f.Typ.implementsTU = true
  · rw [if_pos h1]; exact ⟨_, rfl⟩
  · rw [if_neg h1]
    by_cases h2 : f.Typ.ptrImplementsTU = true
    · rw [if_pos h2]; exact ⟨_, rfl⟩
    · rw [if_neg h2]
      cases hk : f.Typ.kind <;>
        simp_all [isSignedInt, isUnsignedInt]

/-- The plan entry of a field without the text-decoding capability. -/
theorem newFieldParser_plain (i : Nat) (f : StructField)
    (h1 : f.Typ.implementsTU = false) (h2 : f.Typ.ptrImplementsTU = false)
    (h : f.Typ.supported = true) :
    newFieldParser i f = .ok { i := i, utyp := .notUnmarshaler, typ := some f.Typ } := by
  unfold GoType.supported at h
  unfold newFieldParser
  rw [h1, h2]
  simp only [Bool.false_eq_true, if_false]
  cases hk : f.Typ.kind <;> simp_all [isSignedInt, isUnsignedInt]

theorem exportedNames_cons (f : StructField) (fs : List StructField) :
    exportedNames (f :: fs) =
      if f.PkgPath = "" then f.Name :: exportedNames fs else exportedNames fs := by
  by_cases h : f.PkgPath = "" <;> simp [exportedNames, List.filter_cons, StructField.exported, h]

theorem lookup_cons_self (name : String) (fp : fieldParser) (m : List (String × fieldParser)) :
    List.lookup name ((name, fp) :: m) = some fp := by
  simp [List.lookup]

theorem lookup_cons_ne (name k : String) (fp : fieldParser) (m : List (String × fieldParser))
    (h : name ≠ k) : List.lookup name ((k, fp) :: m) = List.lookup name m := by
  have hb : (name == k) = false := by simpa using h
  simp [List.lookup, hb]

/-- The loop of `newParser` leaves alone the names it does not meet. -/
theorem newParserLoop_lookup_other (fs : List StructField) (i : Nat) (p q : parser)
    (name : String) (h : newParserLoop fs i p = .ok q) (hn : name ∉ exportedNames fs) :
    q.byName.lookup name = p.byName.lookup name := by
  induction fs generalizing i p with
  | nil => simp only [newParserLoop] at h; cases h; rfl
  | cons f fs ih =>
    rw [exportedNames_cons] at hn
    unfold newParserLoop at h
    by_cases hx : f.PkgPath = ""
    · rw [if_pos hx] at hn
      rw [if_neg (by simpa using hx)] at h
      cases hfp : newFieldParser i f with
      | error e => rw [hfp] at h; cases h
      | ok fp =>
        rw [hfp] at h
        simp only at h
        rw [ih (i + 1) _ h (fun hc => hn (List.mem_cons_of_mem _ hc))]
        exact lookup_cons_ne _ _ _ _ (fun hc => hn (hc ▸ List.mem_cons_self _ _))
    · rw [if_neg hx] at hn
      rw [if_pos hx] at h
      exact ih (i + 1) p h hn

/-- Every entry of the plan comes from an exported field of that name, and is the
`fieldParser` built for that field at its index. -/
theorem newParserLoop_sound (fs : List StructField) (i : Nat) (p q : parser)
    (name : String) (fp : fieldParser) (h : newParserLoop fs i p = .ok q)
    (hl : q.byName.lookup name = some fp) :
    p.byName.lookup name = some fp ∨
      ∃ j f, fs[j]? = some f ∧ f.PkgPath = "" ∧ f.Name = name ∧
        newFieldParser (i + j) f = .ok fp := by
  induction fs generalizing i p with
  | nil => simp only [newParserLoop] at h; cases h; exact Or.inl hl
  | cons f fs ih =>
    unfold newParserLoop at h
    by_cases hx : f.PkgPath = ""
    · rw [if_neg (by simpa using hx)] at h
      cases hfp : newFieldParser i f with
      | error e => rw [hfp] at h; cases h
      | ok fp0 =>
        rw [hfp] at h
        simp only at h
        rcases ih (i + 1) _ h with hp | ⟨j, g, hg, hgx, hgn, hgp⟩
        · by_cases hname : name = f.Name
          · subst hname
            rw [lookup_cons_self] at hp
            cases hp
            exact Or.inr ⟨0, f, by simp, hx, rfl, hfp⟩
          · rw [lookup_cons_ne _ _ _ _ hname] at hp
            exact Or.inl hp
        · exact Or.inr ⟨j + 1, g, by simpa using hg, hgx, hgn, by
            rw [← hgp]; congr 1; omega⟩
    · rw [if_pos hx] at h
      rcases ih (i + 1) p h with hp | ⟨j, g, hg, hgx, hgn, hgp⟩
      · exact Or.inl hp
      · exact Or.inr ⟨j + 1, g, by simpa using hg, hgx, hgn, by
          rw [← hgp]; congr 1; omega⟩

/-- Every exported field has its entry in the plan, under its name. -/
theorem newParserLoop_complete (fs : List StructField) (i : Nat) (p q : parser)
    (h : newParserLoop fs i p = .ok q) (hnd : (exportedNames fs).Nodup)
    (j : Nat) (f : StructField) (hf : fs[j]? = some f) (hx : f.PkgPath = "") :
    ∃ fp, newFieldParser (i + j) f = .ok fp ∧ q.byName.lookup f.Name = some fp := by
  induction fs generalizing i p j with
  | nil => simp at hf
  | cons g fs ih =>
    rw [exportedNames_cons] at hnd
    unfold newParserLoop at h
    by_cases hgx : g.PkgPath = ""
    · rw [if_pos hgx, List.nodup_cons] at hnd
      rw [if_neg (by simpa using hgx)] at h
      cases hfp : newFieldParser i g with
      | error e => rw [hfp] at h; cases h
      | ok fp0 =>
        rw [hfp] at h
        simp only at h
        cases j with
        | zero =>
          simp only [List.getElem?_cons_zero, Option.some.injEq] at hf
          subst hf
          refine ⟨fp0, hfp, ?_⟩
          rw [newParserLoop_lookup_other fs (i + 1) _ q g.Name h hnd.1]
          exact lookup_cons_self _ _ _
        | succ j =>
          simp only [List.getElem?_cons_succ] at hf
          obtain ⟨fp, h1, h2⟩ := ih (i + 1) _ h hnd.2 j hf
          exact ⟨fp, by rw [← h1]; congr 1; omega, h2⟩
    · rw [if_neg hgx] at hnd
      rw [if_pos hgx] at h
      cases j with
      | zero =>
        simp only [List.getElem?_cons_zero, Option.some.injEq] at hf
        subst hf
        exact absurd hx hgx
      | succ j =>
        simp only [List.getElem?_cons_succ] at hf
        obtain ⟨fp, h1, h2⟩ := ih (i + 1) p h hnd j hf
        exact ⟨fp, by rw [← h1]; congr 1; omega, h2⟩

/-- The loop of `newParser` fails at the first exported field of an unsupported type. -/
theorem newParserLoop_error (fs : List StructField) (i : Nat) (p : parser)
    (h : ∃ f ∈ fs, f.PkgPath = "" ∧ f.Typ.supported = false) :
    ∃ g ∈ fs, g.PkgPath = "" ∧ g.Typ.supported = false ∧
      newParserLoop fs i p = .error (.unsupportedType g.Typ.name) := by
  induction fs generalizing i p with
  | nil => obtain ⟨f, hf, _⟩ := h; cases hf
  | cons f fs ih =>
    unfold newParserLoop
    by_cases hx : f.PkgPath = ""
    · rw [if_neg (by simpa using hx)]
      cases hs : f.Typ.supported with
      | false =>
        rw [newFieldParser_of_unsupported i f hs]
        exact ⟨f, List.mem_cons_self _ _, hx, hs, rfl⟩
      | true =>
        obtain ⟨fp, hfp⟩ := newFieldParser_of_supported i f hs
        rw [hfp]
        simp only
        have hrest : ∃ g ∈ fs, g.PkgPath = "" ∧ g.Typ.supported = false := by
          obtain ⟨g, hg, hgx, hgs⟩ := h
          rcases List.mem_cons.mp hg with rfl | hg
          · rw [hs] at hgs; cases hgs
          · exact ⟨g, hg, hgx, hgs⟩
        obtain ⟨g, hg, hgx, hgs, hres⟩ := ih (i + 1) _ hrest
        exact ⟨g, List.mem_cons_of_mem _ hg, hgx, hgs, hres⟩
    · rw [if_pos hx]
      have hrest : ∃ g ∈ fs, g.PkgPath = "" ∧ g.Typ.supported = false := by
        obtain ⟨g, hg, hgx, hgs⟩ := h
        rcases List.mem_cons.mp hg with rfl | hg
        · exact absurd hgx hx
        · exact ⟨g, hg, hgx, hgs⟩
      obtain ⟨g, hg, hgx, hgs, hres⟩ := ih (i + 1) p hrest
      exact ⟨g, List.mem_cons_of_mem _ hg, hgx, hgs, hres⟩

/-- What a plan built by `newParser` holds under a name. -/
theorem newParser_sound (rt : StructType) (p : parser) (name : String) (fp : fieldParser)
    (h : newParser rt = .ok p) (hl : p.byName.lookup name = some fp) :
    ∃ f, rt.fields[fp.i]? = some f ∧ f.PkgPath = "" ∧ f.Name = name ∧
      newFieldParser fp.i f = .ok fp := by
  rcases newParserLoop_sound rt.fields 0 _ p name fp h hl with hp | ⟨j, f, hf, hx, hn, hfp⟩
  · simp at hp
  · have hi := newFieldParser_i _ _ _ hfp
    rw [Nat.zero_add] at hfp hi
    subst hi
    exact ⟨f, hf, hx, hn, hfp⟩

/-- The plan built by `newParser` has the entry of each exported field under its name. -/
theorem newParser_complete (rt : StructType) (p : parser) (h : newParser rt = .ok p)
    (hwf : rt.WF) (j : Nat) (f : StructField) (hf : rt.fields[j]? = some f)
    (hx : f.PkgPath = "") :
    ∃ fp, newFieldParser j f = .ok fp ∧ p.byName.lookup f.Name = some fp := by
  have := newParserLoop_complete rt.fields 0 _ p h hwf j f hf hx
  simpa using this

/-- A label that is not the name of an exported field has no entry in the plan. -/
theorem newParser_lookup_none (rt : StructType) (p : parser) (name : String)
    (h : newParser rt = .ok p)
    (hno : ∀ f ∈ rt.fields, f.PkgPath = "" → f.Name ≠ name) :
    p.byName.lookup name = none := by
  cases hl : p.byName.lookup name with
  | none => rfl
  | some fp =>
    obtain ⟨f, hf, hx, hn, _⟩ := newParser_sound rt p name fp h hl
    exact absurd hn (hno f (List.getElem?_mem hf) hx)

/-! ## The binder -/

theorem parseLoop_eq_parseCaptures (E : Env) (p : parser) (rt : StructType)
    (names : List String) (rest : List Bytes) (i : Nat) (rv : List Value)
    (hlen : i + rest.length = names.length) :
    p.parseLoop E rt names i rest rv = p.parseCaptures E rt ((names.drop i).zip rest) rv := by
  induction rest generalizing i rv with
  | nil => simp [parser.parseLoop, parser.parseCaptures]
  | cons m rest ih =>
    have hi : i < names.length := by simp only [List.length_cons] at hlen; omega
    rw [List.drop_eq_getElem_cons hi, List.zip_cons_cons]
    unfold parser.parseLoop parser.parseCaptures
    rw [List.getElem?_eq_getElem hi]
    simp only
    cases hpm : p.parseMatch E rt rv names[i] m with
    | mk res rv1 =>
      cases res with
      | ok => exact ih (i + 1) rv1 (by simp only [List.length_cons] at hlen; omega)
      | err e => rfl
      | runtimePanic msg => rfl
      | panicErr e => rfl

/-- Method `parse` applies the match set of the regexp, capture by capture. -/
theorem parse_eq_parseCaptures (E : Env) (p : parser) (rt : StructType) (data : Bytes)
    (rv : List Value) (r : Regexp) (caps : List (String × Bytes))
    (h : r.captures data = some caps) :
    p.parse E data rt rv r = p.parseCaptures E rt caps rv := by
  unfold Regexp.captures at h
  cases hm : r.FindSubmatch data with
  | none => rw [hm] at h; cases h
  | some ms =>
    rw [hm] at h
    simp only [Option.map_some', Option.some.injEq] at h
    subst h
    have hal := r.aligned data ms hm
    unfold parser.parse
    rw [hm]
    simp only
    cases ms with
    | nil =>
      have hn : r.SubexpNames = [] := List.length_eq_zero.mp hal.symm
      simp [hn, parser.parseLoop, parser.parseCaptures]
    | cons m0 ms =>
      rw [parseLoop_eq_parseCaptures E p rt r.SubexpNames _ 1 rv (by
        simp only [List.length_cons] at hal; simp only [List.drop_one, List.tail_cons]; omega)]
      simp [List.zip, List.drop_zipWith]

theorem parseCaptures_append (E : Env) (p : parser) (rt : StructType)
    (pre post : List (String × Bytes)) (rv rv1 : List Value)
    (h : p.parseCaptures E rt pre rv = (.ok, rv1)) :
    p.parseCaptures E rt (pre ++ post) rv = p.parseCaptures E rt post rv1 := by
  induction pre generalizing rv with
  | nil => simp only [parser.parseCaptures] at h; cases h; rfl
  | cons c pre ih =>
    simp only [List.cons_append]
    rw [parser.parseCaptures] at h ⊢
    cases hpm : p.parseMatch E rt rv c.1 c.2 with
    | mk res rv2 =>
      rw [hpm] at h
      cases res with
      | ok => exact ih rv2 h
      | err e => cases h
      | runtimePanic msg => cases h
      | panicErr e => cases h

/-- What the binder does from the capture it has reached. -/
theorem parseCaptures_cons (E : Env) (p : parser) (rt : StructType)
    (name : String) (m : Bytes) (post : List (String × Bytes)) (rv : List Value) :
    p.parseCaptures E rt ((name, m) :: post) rv =
      if (p.parseMatch E rt rv name m).1 = .ok then
        p.parseCaptures E rt post (p.parseMatch E rt rv name m).2
      else p.parseMatch E rt rv name m := by
  rw [parser.parseCaptures]
  cases hpm : p.parseMatch E rt rv name m with
  | mk res rv2 => cases res <;> simp

/-- With a cache that holds only built plans, `Parse` on a pointer to a struct whose plan
builds runs `parse` with that plan and leaves the plan in the cache. -/
theorem Parse_ptr_struct (E : Env) (cache : Cache) (hc : CacheInv cache) (rt : StructType)
    (p : parser) (hp : newParser rt = .ok p) (data : Bytes) (rv : List Value) (r : Regexp) :
    Parse E cache data (.ptr (.struct rt rv)) r =
      ((p.parse E data rt rv r).1, .ptr (.struct rt (p.parse E data rt rv r).2),
        cache.LoadOrStore rt p) := by
  unfold Parse
  simp only [AnyValue.Kind, AnyValue.Elem, ne_eq, not_true_eq_false, if_false]
  cases hl : cache.Load rt with
  | none => simp only [hp]
  | some q =>
    have hq := hc rt q hl
    rw [hp] at hq
    cases hq
    have : cache.LoadOrStore rt p = cache := by
      unfold Cache.LoadOrStore
      unfold Cache.Load at hl
      rw [hl]
    simp only [this]

theorem store_snd (rv : List Value) (i : Nat) (o : Option Value) :
    (store rv i o).2 = rv ∨ ∃ x, (store rv i o).2 = rv.set i x := by
  cases o with
  | none => exact Or.inl rfl
  | some x => exact Or.inr ⟨x, rfl⟩

/-- One iteration of the binder leaves the struct as it is or sets the one field its
plan entry points to. -/
theorem parseMatch_snd (E : Env) (p : parser) (rt : StructType) (rv : List Value)
    (name : String) (m : Bytes) :
    (p.parseMatch E rt rv name m).2 = rv ∨
      ∃ fp x, p.byName.lookup name = some fp ∧
        (p.parseMatch E rt rv name m).2 = rv.set fp.i x := by
  unfold parser.parseMatch
  cases hl : p.byName.lookup name with
  | none => exact Or.inl rfl
  | some fp =>
    simp only
    have hstore : ∀ o, (store rv fp.i o).2 = rv ∨
        ∃ fp1 x, some fp = some fp1 ∧ (store rv fp.i o).2 = rv.set fp1.i x := by
      intro o
      rcases store_snd rv fp.i o with h | ⟨x, h⟩
      · exact Or.inl h
      · exact Or.inr ⟨fp, x, rfl, h⟩
    repeat' split
    all_goals first
      | exact Or.inl rfl
      | exact Or.inr ⟨fp, _, rfl, rfl⟩
      | exact hstore _

theorem parseMatch_length (E : Env) (p : parser) (rt : StructType) (rv : List Value)
    (name : String) (m : Bytes) : (p.parseMatch E rt rv name m).2.length = rv.length := by
  rcases parseMatch_snd E p rt rv name m with h | ⟨fp, x, _, h⟩
  · rw [h]
  · rw [h, List.length_set]

/-- One iteration of the binder changes no field but the one its plan entry points to. -/
theorem parseMatch_frame (E : Env) (p : parser) (rt : StructType) (rv : List Value)
    (name : String) (m : Bytes) (j : Nat)
    (hj : ∀ fp, p.byName.lookup name = some fp → fp.i ≠ j) :
    (p.parseMatch E rt rv name m).2[j]? = rv[j]? := by
  rcases parseMatch_snd E p rt rv name m with h | ⟨fp, x, hl, h⟩
  · rw [h]
  · rw [h, List.getElem?_set_ne (hj fp hl)]

theorem parseCaptures_length (E : Env) (p : parser) (rt : StructType)
    (caps : List (String × Bytes)) (rv : List Value) :
    (p.parseCaptures E rt caps rv).2.length = rv.length := by
  induction caps generalizing rv with
  | nil => rfl
  | cons c caps ih =>
    rw [parseCaptures_cons]
    split
    · rw [ih, parseMatch_length]
    · rw [parseMatch_length]

/-- Captures whose plan entries point to other fields leave field `j` as it is, whether
they bind or fail. -/
theorem parseCaptures_frame (E : Env) (p : parser) (rt : StructType)
    (caps : List (String × Bytes)) (rv : List Value) (j : Nat)
    (hj : ∀ c ∈ caps, ∀ fp, p.byName.lookup c.1 = some fp → fp.i ≠ j) :
    (p.parseCaptures E rt caps rv).2[j]? = rv[j]? := by
  induction caps generalizing rv with
  | nil => rfl
  | cons c caps ih =>
    have h1 := parseMatch_frame E p rt rv c.1 c.2 j (hj c (List.mem_cons_self _ _))
    have h2 := fun rv1 => ih rv1 (fun d hd => hj d (List.mem_cons_of_mem _ hd))
    rw [parseCaptures_cons]
    split
    · rw [h2, h1]
    · rw [h1]

/-- In a plan built by `newParser`, a label other than the name of field `j` never
points to field `j`. -/
theorem newParser_index_ne (rt : StructType) (p : parser) (hp : newParser rt = .ok p)
    (j : Nat) (f : StructField) (hf : rt.fields[j]? = some f) (label : String)
    (hne : label ≠ f.Name) (fp : fieldParser) (hl : p.byName.lookup label = some fp) :
    fp.i ≠ j := by
  obtain ⟨g, hg, _, hgn, _⟩ := newParser_sound rt p label fp hp hl
  intro hij
  rw [hij, hf] at hg
  cases hg
  exact hne hgn.symm

/-! ## Integer widths -/

/-- Table `minMaxIntVals` has the exact bounds of every signed integer kind. -/
theorem minMaxIntVals_bits (w : WordSize) (k : Kind) (h : isSignedInt k = true) :
    minMaxIntVals (k.Bits w) = (-(2 : Int) ^ (k.Bits w - 1), (2 : Int) ^ (k.Bits w - 1) - 1) := by
  cases w <;> cases k <;> simp [isSignedInt] at h <;>
    simp [Kind.Bits, WordSize.IntSize, minMaxIntVals]

/-- Table `maxUintVals` has the exact bound of every unsigned integer kind. -/
theorem maxUintVals_bits (w : WordSize) (k : Kind) (h : isUnsignedInt k = true) :
    maxUintVals (k.Bits w) = 2 ^ (k.Bits w) - 1 := by
  cases w <;> cases k <;> simp [isUnsignedInt] at h <;>
    simp [Kind.Bits, WordSize.IntSize, maxUintVals]

theorem bits_pos (w : WordSize) (k : Kind) (h : isSignedInt k = true ∨ isUnsignedInt k = true) :
    1 ≤ k.Bits w ∧ k.Bits w ≤ 64 := by
  cases w <;> cases k <;> simp [isSignedInt, isUnsignedInt] at h <;>
    simp [Kind.Bits, WordSize.IntSize]

theorem wrapInt_of_range (b : Nat) (n : Int) (hb : 1 ≤ b)
    (hlo : -(2 : Int) ^ (b - 1) ≤ n) (hhi : n ≤ (2 : Int) ^ (b - 1) - 1) :
    wrapInt b n = n := by
  unfold wrapInt
  have h2 : (2 : Int) ^ b = 2 * 2 ^ (b - 1) := by
    rw [← pow_succ']
    congr 1
    omega
  rw [Int.emod_eq_of_lt (by omega) (by omega)]
  omega

theorem wrapUint_of_range (b n : Nat) (h : n ≤ 2 ^ b - 1) : wrapUint b n = n := by
  unfold wrapUint
  have : 0 < 2 ^ b := Nat.pow_pos (by decide)
  exact Nat.mod_eq_of_lt (by omega)

/-! ## One capture on a field of a built-in kind -/

theorem parseMatch_plain_string (E : Env) (p : parser) (rt : StructType) (rv : List Value)
    (name : String) (m : Bytes) (i : Nat) (f : StructField) (old : Value)
    (hl : p.byName.lookup name = some { i := i, utyp := .notUnmarshaler, typ := some f.Typ })
    (hf : rt.fields[i]? = some f) (hv : rv[i]? = some old) (hk : f.Typ.kind = .String) :
    p.parseMatch E rt rv name m = (.ok, rv.set i (.str m)) := by
  unfold parser.parseMatch
  rw [hl]
  simp [hf, hv, hk, store, SetString]

theorem parseMatch_plain_bytes (E : Env) (p : parser) (rt : StructType) (rv : List Value)
    (name : String) (m : Bytes) (i : Nat) (f : StructField) (old : Value)
    (hl : p.byName.lookup name = some { i := i, utyp := .notUnmarshaler, typ := some f.Typ })
    (hf : rt.fields[i]? = some f) (hv : rv[i]? = some old) (hk : f.Typ.kind = .Slice)
    (he : f.Typ.elemKind = .Uint8) :
    p.parseMatch E rt rv name m = (.ok, rv.set i (.bytes m)) := by
  unfold parser.parseMatch
  rw [hl]
  simp [hf, hv, hk, he, store, SetBytes]

theorem parseMatch_plain_signed (E : Env) (p : parser) (rt : StructType) (rv : List Value)
    (name : String) (m : Bytes) (i : Nat) (f : StructField) (old : Value)
    (hl : p.byName.lookup name = some { i := i, utyp := .notUnmarshaler, typ := some f.Typ })
    (hf : rt.fields[i]? = some f) (hv : rv[i]? = some old)
    (hk : isSignedInt f.Typ.kind = true) :
    p.parseMatch E rt rv name m =
      if (ParseInt m 10 64).2 ≠ none then (.err (.cannotParseInteger m), rv)
      else if (ParseInt m 10 64).1 < -(2 : Int) ^ (f.Typ.kind.Bits E.word - 1) ∨
          (ParseInt m 10 64).1 > (2 : Int) ^ (f.Typ.kind.Bits E.word - 1) - 1 then
        (.err (.cannotRepresent (ParseInt m 10 64).1 f.Typ.name), rv)
      else (.ok, rv.set i (.int (wrapInt (f.Typ.kind.Bits E.word) (ParseInt m 10 64).1))) := by
  have hb := minMaxIntVals_bits E.word f.Typ.kind hk
  unfold parser.parseMatch
  rw [hl]
  simp only [hf, hv, ne_eq, not_true_eq_false, if_false]
  cases hk1 : f.Typ.kind <;> simp [isSignedInt, hk1] at hk <;>
    simp only [hk1] at hb ⊢ <;> simp only [hb, store, SetInt, hk1]

theorem parseMatch_plain_unsigned (E : Env) (p : parser) (rt : StructType) (rv : List Value)
    (name : String) (m : Bytes) (i : Nat) (f : StructField) (old : Value)
    (hl : p.byName.lookup name = some { i := i, utyp := .notUnmarshaler, typ := some f.Typ })
    (hf : rt.fields[i]? = some f) (hv : rv[i]? = some old)
    (hk : isUnsignedInt f.Typ.kind = true) :
    p.parseMatch E rt rv name m =
      if (ParseUint m 10 64).2 ≠ none then (.err (.cannotParseUnsigned m), rv)
      else if (ParseUint m 10 64).1 > 2 ^ (f.Typ.kind.Bits E.word) - 1 then
        (.err (.cannotRepresent ((ParseUint m 10 64).1 : Int) f.Typ.name), rv)
      else (.ok, rv.set i (.uint (wrapUint (f.Typ.kind.Bits E.word) (ParseUint m 10 64).1))) := by
  have hb := maxUintVals_bits E.word f.Typ.kind hk
  unfold parser.parseMatch
  rw [hl]
  simp only [hf, hv, ne_eq, not_true_eq_false, if_false]
  cases hk1 : f.Typ.kind <;> simp [isUnsignedInt, hk1] at hk <;>
    simp only [hk1] at hb ⊢ <;> simp only [hb, store, SetUint, hk1]

/-- The plan entry of an exported field of a built-in kind, and the field's old value. -/
theorem plain_field_entry (rt : StructType) (p : parser) (hp : newParser rt = .ok p)
    (hwf : rt.WF) (rv : List Value) (hlen : rv.length = rt.fields.length) (i : Nat)
    (f : StructField) (hf : rt.fields[i]? = some f) (hx : f.PkgPath = "")
    (h1 : f.Typ.implementsTU = false) (h2 : f.Typ.ptrImplementsTU = false)
    (hs : f.Typ.supported = true) :
    p.byName.lookup f.Name = some { i := i, utyp := .notUnmarshaler, typ := some f.Typ } ∧
      ∃ old, rv[i]? = some old := by
  obtain ⟨fp, hfp, hl⟩ := newParser_complete rt p hp hwf i f hf hx
  rw [newFieldParser_plain i f h1 h2 hs] at hfp
  cases hfp
  refine ⟨hl, ?_⟩
  have hi : i < rv.length := by
    rw [hlen]
    exact (List.getElem?_eq_some.mp hf).1
  exact ⟨rv[i], List.getElem?_eq_getElem hi⟩

theorem CacheInv_nil : CacheInv [] := by
  intro rt p h
  cases h

theorem CacheInv_LoadOrStore (cache : Cache) (hc : CacheInv cache) (rt : StructType)
    (p : parser) (hp : newParser rt = .ok p) : CacheInv (cache.LoadOrStore rt p) := by
  unfold Cache.LoadOrStore
  cases hl : List.lookup rt cache with
  | some q => exact hc
  | none =>
    intro rt1 p1 h1
    unfold Cache.Load at h1
    by_cases hrt : rt1 = rt
    · subst hrt
      simp only [List.lookup, beq_self_eq_true] at h1
      cases h1
      exact hp
    · have hb : (rt1 == rt) = false := by simpa using hrt
      simp only [List.lookup, hb] at h1
      exact hc rt1 p1 h1

/-- Every call of `Parse` keeps the plan cache a cache of built plans. -/
theorem Parse_preserves_CacheInv (E : Env) (cache : Cache) (hc : CacheInv cache)
    (data : Bytes) (v : AnyValue) (r : Regexp) : CacheInv (Parse E cache data v r).2.2 := by
  unfold Parse
  split
  · exact hc
  · split
    · split
      · exact hc
      · split
        · exact hc
        · next p hp => exact CacheInv_LoadOrStore cache hc _ p hp
    · exact hc

theorem signed_range_int64 (w : WordSize) (k : Kind) (h : isSignedInt k = true) (v : Int)
    (hlo : -(2 : Int) ^ (k.Bits w - 1) ≤ v) (hhi : v ≤ (2 : Int) ^ (k.Bits w - 1) - 1) :
    -9223372036854775808 ≤ v ∧ v ≤ 9223372036854775807 := by
  cases w <;> cases k <;> simp [isSignedInt] at h <;>
    simp [Kind.Bits, WordSize.IntSize] at hlo hhi <;> omega

theorem unsigned_range_uint64 (w : WordSize) (k : Kind) (h : isUnsignedInt k = true) (v : Nat)
    (hhi : v ≤ 2 ^ (k.Bits w) - 1) : v ≤ maxUint64 := by
  cases w <;> cases k <;> simp [isUnsignedInt] at h <;>
    simp [Kind.Bits, WordSize.IntSize] at hhi <;> simp only [maxUint64] <;> omega

/-! ## `Parse` at the capture the binder has reached -/

/-- When the captures before `(name, m)` have bound, `Parse` ends as the binder does
from that capture on, and the plan is in the cache afterwards. -/
theorem Parse_at_capture (E : Env) (cache : Cache) (hc : CacheInv cache) (rt : StructType)
    (p : parser) (hp : newParser rt = .ok p) (data : Bytes) (rv : List Value) (r : Regexp)
    (pre post : List (String × Bytes)) (name : String) (m : Bytes)
    (hcap : r.captures data = some (pre ++ (name, m) :: post))
    (rv1 : List Value) (hpre : p.parseCaptures E rt pre rv = (.ok, rv1)) :
    Parse E cache data (.ptr (.struct rt rv)) r =
      ((p.parseCaptures E rt ((name, m) :: post) rv1).1,
        .ptr (.struct rt (p.parseCaptures E rt ((name, m) :: post) rv1).2),
        cache.LoadOrStore rt p) := by
  rw [Parse_ptr_struct E cache hc rt p hp, parse_eq_parseCaptures E p rt data rv r _ hcap,
    parseCaptures_append E p rt pre _ rv rv1 hpre]

/-- When the binder reaches a capture that fails, `Parse` returns that failure and the
struct is as the failing iteration left it. -/
theorem Parse_capture_fails (E : Env) (cache : Cache) (hc : CacheInv cache) (rt : StructType)
    (p : parser) (hp : newParser rt = .ok p) (data : Bytes) (rv : List Value) (r : Regexp)
    (pre post : List (String × Bytes)) (name : String) (m : Bytes)
    (hcap : r.captures data = some (pre ++ (name, m) :: post))
    (rv1 : List Value) (hpre : p.parseCaptures E rt pre rv = (.ok, rv1))
    (e : Err) (rv2 : List Value) (hm : p.parseMatch E rt rv1 name m = (.err e, rv2)) :
    Parse E cache data (.ptr (.struct rt rv)) r =
      (.err e, .ptr (.struct rt rv2), cache.LoadOrStore rt p) := by
  rw [Parse_at_capture E cache hc rt p hp data rv r pre post name m hcap rv1 hpre,
    parseCaptures_cons, hm]
  simp

/-- When the binder reaches a capture that sets field `i` to `x`, and no later capture
has the name of field `i`, `Parse` ends as the later captures do and field `i` holds
`x` afterwards. -/
theorem Parse_capture_binds (E : Env) (cache : Cache) (hc : CacheInv cache) (rt : StructType)
    (p : parser) (hp : newParser rt = .ok p) (data : Bytes) (rv : List Value) (r : Regexp)
    (pre post : List (String × Bytes)) (m : Bytes)
    (i : Nat) (f : StructField) (hf : rt.fields[i]? = some f)
    (hcap : r.captures data = some (pre ++ (f.Name, m) :: post))
    (rv1 : List Value) (hpre : p.parseCaptures E rt pre rv = (.ok, rv1))
    (hi : i < rv1.length) (x : Value)
    (hm : p.parseMatch E rt rv1 f.Name m = (.ok, rv1.set i x))
    (hlast : ∀ c ∈ post, c.1 ≠ f.Name) :
    (Parse E cache data (.ptr (.struct rt rv)) r).1 =
        (p.parseCaptures E rt post (rv1.set i x)).1 ∧
      (Parse E cache data (.ptr (.struct rt rv)) r).2.1.fields[i]? = some x := by
  rw [Parse_at_capture E cache hc rt p hp data rv r pre post f.Name m hcap rv1 hpre,
    parseCaptures_cons, hm]
  refine ⟨by simp, ?_⟩
  simp only [if_true, AnyValue.fields]
  rw [parseCaptures_frame E p rt post _ i (fun c hcm fp hl =>
    newParser_index_ne rt p hp i f hf c.1 (hlast c hcm) fp hl)]
  exact List.getElem?_set_self hi

/-! ## The claims -/

/-- C1: for a struct type whose plan builds and a match in which a capture labels an
exported signed or unsigned integer field with the base-10 literal of a value `v`
representable in the field's width, `Parse` returns nil and the field equals `v`
(the other captures of the match binding as well, none after it naming the field again). -/
theorem Parse_binds_integer_literal (E : Env) (cache : Cache) (hc : CacheInv cache)
    (rt : StructType) (p : parser) (hp : newParser rt = .ok p) (hwf : rt.WF)
    (rv : List Value) (hlen : rv.length = rt.fields.length)
    (data : Bytes) (r : Regexp) (pre post : List (String × Bytes)) (text : Bytes)
    (i : Nat) (f : StructField) (hf : rt.fields[i]? = some f) (hx : f.PkgPath = "")
    (hcap : r.captures data = some (pre ++ (f.Name, text) :: post))
    (h1 : f.Typ.implementsTU = false) (h2 : f.Typ.ptrImplementsTU = false) (v : Int)
    (hv : (isSignedInt f.Typ.kind = true ∧ isIntLiteral text = true ∧
            intLiteralValue text = v ∧ -(2 : Int) ^ (f.Typ.kind.Bits E.word - 1) ≤ v ∧
            v ≤ (2 : Int) ^ (f.Typ.kind.Bits E.word - 1) - 1) ∨
          (isUnsignedInt f.Typ.kind = true ∧ isUintLiteral text = true ∧
            (decimalValue text : Int) = v ∧ v ≤ (2 : Int) ^ (f.Typ.kind.Bits E.word) - 1))
    (rv1 : List Value) (hpre : p.parseCaptures E rt pre rv = (.ok, rv1))
    (hpost : (p.parseCaptures E rt post (rv1.set i (integerValue f.Typ.kind v))).1 = .ok)
    (hlast : ∀ c ∈ post, c.1 ≠ f.Name) :
    (Parse E cache data (.ptr (.struct rt rv)) r).1 = .ok ∧
      (Parse E cache data (.ptr (.struct rt rv)) r).2.1.fields[i]? =
        some (integerValue f.Typ.kind v) := by
  have hlen1 : rv1.length = rt.fields.length := by
    have := parseCaptures_length E p rt pre rv
    rw [hpre] at this
    exact this.trans hlen
  have hi : i < rv1.length := by
    rw [hlen1]
    exact (List.getElem?_eq_some.mp hf).1
  have hs : f.Typ.supported = true := by
    unfold GoType.supported
    rcases hv with hv | hv <;> simp [hv.1]
  obtain ⟨hl, old, hold⟩ := plain_field_entry rt p hp hwf rv1 hlen1 i f hf hx h1 h2 hs
  have hm : p.parseMatch E rt rv1 f.Name text = (.ok, rv1.set i (integerValue f.Typ.kind v)) := by
    rcases hv with ⟨hk, hlit, hval, hlo, hhi⟩ | ⟨hk, hlit, hval, hhi⟩
    · obtain ⟨h64lo, h64hi⟩ := signed_range_int64 E.word f.Typ.kind hk v hlo hhi
      rw [parseMatch_plain_signed E p rt rv1 f.Name text i f old hl hf hold hk,
        ParseInt_literal_inRange text hlit (by rw [hval]; exact h64lo) (by rw [hval]; exact h64hi),
        hval]
      have hr : ¬ (v < -(2 : Int) ^ (f.Typ.kind.Bits E.word - 1) ∨
          v > (2 : Int) ^ (f.Typ.kind.Bits E.word - 1) - 1) := by omega
      simp only [ne_eq, not_true_eq_false, if_false, hr]
      rw [wrapInt_of_range _ v (bits_pos E.word f.Typ.kind (Or.inl hk)).1 hlo hhi]
      simp [integerValue, hk]
    · have hvn : v.toNat = decimalValue text := by omega
      have hle : decimalValue text ≤ 2 ^ (f.Typ.kind.Bits E.word) - 1 := by
        have hpos : 0 < 2 ^ (f.Typ.kind.Bits E.word) := Nat.pow_pos (by decide)
        have hc : ((2 ^ (f.Typ.kind.Bits E.word) : Nat) : Int) = (2 : Int) ^ (f.Typ.kind.Bits E.word) := by
          push_cast; rfl
        omega
      have h64 := unsigned_range_uint64 E.word f.Typ.kind hk _ hle
      have hsg : isSignedInt f.Typ.kind = false := by
        cases hk1 : f.Typ.kind <;> simp [isUnsignedInt, hk1] at hk <;> rfl
      rw [parseMatch_plain_unsigned E p rt rv1 f.Name text i f old hl hf hold hk,
        ParseUint_literal text hlit, if_pos h64]
      have hr : ¬ (decimalValue text > 2 ^ (f.Typ.kind.Bits E.word) - 1) := by omega
      simp only [ne_eq, not_true_eq_false, if_false, hr]
      rw [wrapUint_of_range _ _ hle]
      simp [integerValue, hsg, hvn]
  have := Parse_capture_binds E cache hc rt p hp data rv r pre post text i f hf hcap rv1 hpre
    hi _ hm hlast
  exact ⟨this.1.trans hpost, this.2⟩

/-- Witness for C1: `[foo, 3]` into `stringInt` binds `I = 3`. -/
theorem Parse_binds_integer_literal_witness :
    (Parse env64 [] (ascii "[foo, 3]")
        (.ptr (.struct stringInt [.str [], .str [], .int 0])) reStringInt).1 = .ok ∧
      (Parse env64 [] (ascii "[foo, 3]")
        (.ptr (.struct stringInt [.str [], .str [], .int 0])) reStringInt).2.1.fields[2]? =
        some (integerValue .Int 3) :=
  Parse_binds_integer_literal env64 [] CacheInv_nil stringInt
    { byName := [("I", { i := 2, utyp := .notUnmarshaler, typ := some (plainType "int" .Int) }),
        ("S", { i := 0, utyp := .notUnmarshaler, typ := some (plainType "string" .String) })] }
    rfl (by decide) [.str [], .str [], .int 0] rfl (ascii "[foo, 3]") reStringInt
    [("S", ascii "foo")] [] (ascii "3") 2 (exportedField "I" (plainType "int" .Int)) rfl rfl rfl
    rfl rfl 3 (Or.inl ⟨rfl, rfl, rfl, by decide, by decide⟩)
    [.str (ascii "foo"), .str [], .int 0] rfl rfl (by simp)

/-- The row `-1, -2, -3, -4, -5` of `TestParse`: `Parse` returns nil and the five fields
of `ints` hold -1, -2, -3, -4, -5. -/
theorem Parse_ints_row :
    (Parse env64 [] (ascii "-1, -2, -3, -4, -5")
        (.ptr (.struct ints [.int 0, .int 0, .int 0, .int 0, .int 0])) reInts).1 = .ok ∧
      (Parse env64 [] (ascii "-1, -2, -3, -4, -5")
        (.ptr (.struct ints [.int 0, .int 0, .int 0, .int 0, .int 0])) reInts).2.1 =
        .ptr (.struct ints [.int (-1), .int (-2), .int (-3), .int (-4), .int (-5)]) :=
  ⟨rfl, rfl⟩

/-- The row `[foo, 3]` of `TestParse`: `Parse` returns nil, `S` is `foo`, `I` is 3 and the
unexported `x` keeps its value. -/
theorem Parse_foo_3 :
    (Parse env64 [] (ascii "[foo, 3]")
        (.ptr (.struct stringInt [.str [], .str [], .int 0])) reStringInt).1 = .ok ∧
      (Parse env64 [] (ascii "[foo, 3]")
        (.ptr (.struct stringInt [.str [], .str [], .int 0])) reStringInt).2.1 =
        .ptr (.struct stringInt [.str (ascii "foo"), .str [], .int 3]) :=
  ⟨rfl, rfl⟩

/-- C2: when a capture labels an exported string field (of type `string` or of a named
string type) or a byte-slice field, the field holds exactly the matched bytes after
`Parse`: as a string for the string kind, as a byte slice for `[]byte` (the binder having
reached the capture, and no later capture naming the field again). -/
theorem Parse_stores_matched_bytes (E : Env) (cache : Cache) (hc : CacheInv cache)
    (rt : StructType) (p : parser) (hp : newParser rt = .ok p) (hwf : rt.WF)
    (rv : List Value) (hlen : rv.length = rt.fields.length)
    (data : Bytes) (r : Regexp) (pre post : List (String × Bytes)) (text : Bytes)
    (i : Nat) (f : StructField) (hf : rt.fields[i]? = some f) (hx : f.PkgPath = "")
    (hcap : r.captures data = some (pre ++ (f.Name, text) :: post))
    (h1 : f.Typ.implementsTU = false) (h2 : f.Typ.ptrImplementsTU = false)
    (hk : f.Typ.kind = .String ∨ (f.Typ.kind = .Slice ∧ f.Typ.elemKind = .Uint8))
    (rv1 : List Value) (hpre : p.parseCaptures E rt pre rv = (.ok, rv1))
    (hlast : ∀ c ∈ post, c.1 ≠ f.Name) :
    (Parse E cache data (.ptr (.struct rt rv)) r).2.1.fields[i]? =
        some (if f.Typ.kind = .String then .str text else .bytes text) ∧
      (Parse E cache data (.ptr (.struct rt rv)) r).1 =
        (p.parseCaptures E rt post
          (rv1.set i (if f.Typ.kind = .String then .str text else .bytes text))).1 := by
  have hlen1 : rv1.length = rt.fields.length := by
    have := parseCaptures_length E p rt pre rv
    rw [hpre] at this
    exact this.trans hlen
  have hi : i < rv1.length := by
    rw [hlen1]
    exact (List.getElem?_eq_some.mp hf).1
  have hs : f.Typ.supported = true := by
    unfold GoType.supported
    rcases hk with hk | hk <;> simp [hk]
  obtain ⟨hl, old, hold⟩ := plain_field_entry rt p hp hwf rv1 hlen1 i f hf hx h1 h2 hs
  have hm : p.parseMatch E rt rv1 f.Name text =
      (.ok, rv1.set i (if f.Typ.kind = .String then .str text else .bytes text)) := by
    rcases hk with hk | ⟨hk, he⟩
    · rw [parseMatch_plain_string E p rt rv1 f.Name text i f old hl hf hold hk, if_pos hk]
    · rw [parseMatch_plain_bytes E p rt rv1 f.Name text i f old hl hf hold hk he,
        if_neg (by rw [hk]; decide)]
  have := Parse_capture_binds E cache hc rt p hp data rv r pre post text i f hf hcap rv1 hpre
    hi _ hm hlast
  exact ⟨this.2, this.1⟩

/-- Witness for C2: `hello world` into `stringBytes` leaves `B` the bytes of `world`. -/
theorem Parse_stores_matched_bytes_witness :
    (Parse env64 [] (ascii "hello world")
        (.ptr (.struct stringBytes [.str [], .bytes []])) reStringBytes).2.1.fields[1]? =
        some (.bytes (ascii "world")) ∧
      (Parse env64 [] (ascii "hello world")
        (.ptr (.struct stringBytes [.str [], .bytes []])) reStringBytes).1 = .ok :=
  Parse_stores_matched_bytes env64 [] CacheInv_nil stringBytes
    { byName := [("B", { i := 1, utyp := .notUnmarshaler, typ := some bytesType }),
        ("S", { i := 0, utyp := .notUnmarshaler,
                typ := some (plainType "hasty.myString" .String) })] }
    rfl (by decide) [.str [], .bytes []] rfl (ascii "hello world") reStringBytes
    [("S", ascii "hello")] [] (ascii "world") 1 (exportedField "B" bytesType) rfl rfl rfl
    rfl rfl (Or.inr ⟨rfl, rfl⟩) [.str (ascii "hello"), .bytes []] rfl (by simp)

/-- The row `hello world` of `TestParse`: `Parse` returns nil, `S` is `hello` and `B` is
the bytes of `world`. -/
theorem Parse_hello_world :
    Parse env64 [] (ascii "hello world")
        (.ptr (.struct stringBytes [.str [], .bytes []])) reStringBytes =
      (.ok, .ptr (.struct stringBytes [.str (ascii "hello"), .bytes (ascii "world")]),
        [(stringBytes,
          { byName := [("B", { i := 1, utyp := .notUnmarshaler, typ := some bytesType }),
            ("S", { i := 0, utyp := .notUnmarshaler,
                    typ := some (plainType "hasty.myString" .String) })] })]) := by
  rfl

/-- C3 fails as stated: `9223372036854775808` is a base-10 literal whose value, 2^63, lies
outside the interval of `int64`, and `Parse` into an `int64` field fails with the
cannot-parse-as-integer error, not with the cannot-represent (out of range) one. -/
theorem Parse_int64_literal_beyond_range :
    isIntLiteral (ascii "9223372036854775808") = true ∧
      intLiteralValue (ascii "9223372036854775808") > (2 : Int) ^ (64 - 1) - 1 ∧
      (Parse env64 [] (ascii "9223372036854775808")
        (.ptr (.struct (oneField (plainType "int64" .Int64)) [.int 0]))
        (oneGroup (ascii "9223372036854775808"))).1 =
        .err (.cannotParseInteger (ascii "9223372036854775808")) :=
  ⟨rfl, by decide, rfl⟩

/-- C3, amended: for an exported signed integer field of width `w` and a capture text that
is a base-10 integer literal of value `v`, reached by the binder: when `v` is outside
`[-2^63, 2^63 - 1]`, `Parse` fails with the cannot-parse-as-integer error; when `v` is
inside that interval and outside `[-2^(w-1), 2^(w-1) - 1]`, `Parse` fails with the
cannot-represent error for `v`; in both cases the field is not written. When `v` is inside
`[-2^(w-1), 2^(w-1) - 1]` the capture binds: the field is set to `v` and the binder goes
on with the later captures. -/
theorem Parse_signed_literal (E : Env) (cache : Cache) (hc : CacheInv cache)
    (rt : StructType) (p : parser) (hp : newParser rt = .ok p) (hwf : rt.WF)
    (rv : List Value) (hlen : rv.length = rt.fields.length)
    (data : Bytes) (r : Regexp) (pre post : List (String × Bytes)) (text : Bytes)
    (i : Nat) (f : StructField) (hf : rt.fields[i]? = some f) (hx : f.PkgPath = "")
    (hcap : r.captures data = some (pre ++ (f.Name, text) :: post))
    (h1 : f.Typ.implementsTU = false) (h2 : f.Typ.ptrImplementsTU = false)
    (hk : isSignedInt f.Typ.kind = true) (hlit : isIntLiteral text = true)
    (rv1 : List Value) (hpre : p.parseCaptures E rt pre rv = (.ok, rv1)) :
    ((intLiteralValue text < -(2 : Int) ^ 63 ∨ (2 : Int) ^ 63 - 1 < intLiteralValue text) →
        Parse E cache data (.ptr (.struct rt rv)) r =
          (.err (.cannotParseInteger text), .ptr (.struct rt rv1), cache.LoadOrStore rt p)) ∧
      ((-(2 : Int) ^ 63 ≤ intLiteralValue text ∧ intLiteralValue text ≤ (2 : Int) ^ 63 - 1) →
        (intLiteralValue text < -(2 : Int) ^ (f.Typ.kind.Bits E.word - 1) ∨
          (2 : Int) ^ (f.Typ.kind.Bits E.word - 1) - 1 < intLiteralValue text) →
        Parse E cache data (.ptr (.struct rt rv)) r =
          (.err (.cannotRepresent (intLiteralValue text) f.Typ.name), .ptr (.struct rt rv1),
            cache.LoadOrStore rt p)) ∧
      ((-(2 : Int) ^ (f.Typ.kind.Bits E.word - 1) ≤ intLiteralValue text ∧
          intLiteralValue text ≤ (2 : Int) ^ (f.Typ.kind.Bits E.word - 1) - 1) →
        Parse E cache data (.ptr (.struct rt rv)) r =
          ((p.parseCaptures E rt post (rv1.set i (.int (intLiteralValue text)))).1,
            .ptr (.struct rt
              (p.parseCaptures E rt post (rv1.set i (.int (intLiteralValue text)))).2),
            cache.LoadOrStore rt p)) := by
  have hlen1 : rv1.length = rt.fields.length := by
    have := parseCaptures_length E p rt pre rv
    rw [hpre] at this
    exact this.trans hlen
  have hs : f.Typ.supported = true := by
    unfold GoType.supported
    simp [hk]
  obtain ⟨hl, old, hold⟩ := plain_field_entry rt p hp hwf rv1 hlen1 i f hf hx h1 h2 hs
  have hpm := parseMatch_plain_signed E p rt rv1 f.Name text i f old hl hf hold hk
  have e63 : (2 : Int) ^ 63 = 9223372036854775808 := by norm_num
  refine ⟨?_, ?_, ?_⟩
  · intro hout
    rw [e63] at hout
    have herr := ParseInt_literal_outOfRange text hlit (by omega)
    rw [herr] at hpm
    simp only [ne_eq, reduceCtorEq, not_false_eq_true, if_true] at hpm
    exact Parse_capture_fails E cache hc rt p hp data rv r pre post f.Name text hcap rv1 hpre
      _ _ hpm
  · intro hin hout
    rw [e63] at hin
    rw [ParseInt_literal_inRange text hlit (by omega) (by omega)] at hpm
    have hr : intLiteralValue text < -(2 : Int) ^ (f.Typ.kind.Bits E.word - 1) ∨
        intLiteralValue text > (2 : Int) ^ (f.Typ.kind.Bits E.word - 1) - 1 := by omega
    simp only [ne_eq, not_true_eq_false, if_false, hr, if_true] at hpm
    exact Parse_capture_fails E cache hc rt p hp data rv r pre post f.Name text hcap rv1 hpre
      _ _ hpm
  · intro hin
    obtain ⟨h64lo, h64hi⟩ := signed_range_int64 E.word f.Typ.kind hk _ hin.1 hin.2
    rw [ParseInt_literal_inRange text hlit h64lo h64hi] at hpm
    have hr : ¬ (intLiteralValue text < -(2 : Int) ^ (f.Typ.kind.Bits E.word - 1) ∨
        intLiteralValue text > (2 : Int) ^ (f.Typ.kind.Bits E.word - 1) - 1) := by omega
    simp only [ne_eq, not_true_eq_false, if_false, hr] at hpm
    rw [wrapInt_of_range _ _ (bits_pos E.word f.Typ.kind (Or.inl hk)).1 hin.1 hin.2] at hpm
    rw [Parse_at_capture E cache hc rt p hp data rv r pre post f.Name text hcap rv1 hpre,
      parseCaptures_cons, hpm]
    simp

/-- Witness for C3, amended: `128` into an `int8` field fails with the cannot-represent
error and the field keeps its value. -/
theorem Parse_signed_literal_witness :
    Parse env64 [] (ascii "128") (.ptr (.struct (oneField (plainType "int8" .Int8)) [.int 0]))
        (oneGroup (ascii "128")) =
      (.err (.cannotRepresent 128 "int8"),
        .ptr (.struct (oneField (plainType "int8" .Int8)) [.int 0]),
        Cache.LoadOrStore [] (oneField (plainType "int8" .Int8))
          { byName := [("N", { i := 0, utyp := .notUnmarshaler,
                               typ := some (plainType "int8" .Int8) })] }) :=
  (Parse_signed_literal env64 [] CacheInv_nil (oneField (plainType "int8" .Int8))
    { byName := [("N", { i := 0, utyp := .notUnmarshaler,
                         typ := some (plainType "int8" .Int8) })] }
    rfl (by decide) [.int 0] rfl (ascii "128") (oneGroup (ascii "128")) [] [] (ascii "128") 0
    (exportedField "N" (plainType "int8" .Int8)) rfl rfl rfl rfl rfl rfl rfl [.int 0] rfl).2.1
    (by decide) (by decide)

/-- The other half of the witness of C3: `127` into an `int8` field returns nil and the
field is 127. -/
theorem Parse_int8_127 :
    (Parse env64 [] (ascii "127") (.ptr (.struct (oneField (plainType "int8" .Int8)) [.int 0]))
        (oneGroup (ascii "127"))).1 = .ok ∧
      (Parse env64 [] (ascii "127") (.ptr (.struct (oneField (plainType "int8" .Int8)) [.int 0]))
        (oneGroup (ascii "127"))).2.1 =
        .ptr (.struct (oneField (plainType "int8" .Int8)) [.int 127]) :=
  ⟨rfl, rfl⟩

/-- C4 fails as stated: `18446744073709551616` is a base-10 unsigned literal whose value,
2^64, exceeds `2^64 - 1`, and `Parse` into a `uint64` field fails with the
cannot-parse-as-unsigned-integer error, not with the cannot-represent one. -/
theorem Parse_uint64_literal_beyond_range :
    isUintLiteral (ascii "18446744073709551616") = true ∧
      decimalValue (ascii "18446744073709551616") > 2 ^ 64 - 1 ∧
      (Parse env64 [] (ascii "18446744073709551616")
        (.ptr (.struct (oneField (plainType "uint64" .Uint64)) [.uint 0]))
        (oneGroup (ascii "18446744073709551616"))).1 =
        .err (.cannotParseUnsigned (ascii "18446744073709551616")) :=
  ⟨rfl, by decide, rfl⟩

/-- C4, amended: for an exported unsigned integer field of width `w` and a capture text
that is a base-10 unsigned literal of value `v`, reached by the binder: when `v` exceeds
`2^64 - 1`, `Parse` fails with the cannot-parse-as-unsigned-integer error; when `v` is at
most `2^64 - 1` and exceeds `2^w - 1`, `Parse` fails with the cannot-represent error for
`v`; in both cases the field is not written. When `v` is at most `2^w - 1` the capture
binds: the field is set to `v` and the binder goes on with the later captures. -/
theorem Parse_unsigned_literal (E : Env) (cache : Cache) (hc : CacheInv cache)
    (rt : StructType) (p : parser) (hp : newParser rt = .ok p) (hwf : rt.WF)
    (rv : List Value) (hlen : rv.length = rt.fields.length)
    (data : Bytes) (r : Regexp) (pre post : List (String × Bytes)) (text : Bytes)
    (i : Nat) (f : StructField) (hf : rt.fields[i]? = some f) (hx : f.PkgPath = "")
    (hcap : r.captures data = some (pre ++ (f.Name, text) :: post))
    (h1 : f.Typ.implementsTU = false) (h2 : f.Typ.ptrImplementsTU = false)
    (hk : isUnsignedInt f.Typ.kind = true) (hlit : isUintLiteral text = true)
    (rv1 : List Value) (hpre : p.parseCaptures E rt pre rv = (.ok, rv1)) :
    (2 ^ 64 - 1 < decimalValue text →
        Parse E cache data (.ptr (.struct rt rv)) r =
          (.err (.cannotParseUnsigned text), .ptr (.struct rt rv1), cache.LoadOrStore rt p)) ∧
      (decimalValue text ≤ 2 ^ 64 - 1 → 2 ^ (f.Typ.kind.Bits E.word) - 1 < decimalValue text →
        Parse E cache data (.ptr (.struct rt rv)) r =
          (.err (.cannotRepresent (decimalValue text : Int) f.Typ.name),
            .ptr (.struct rt rv1), cache.LoadOrStore rt p)) ∧
      (decimalValue text ≤ 2 ^ (f.Typ.kind.Bits E.word) - 1 →
        Parse E cache data (.ptr (.struct rt rv)) r =
          ((p.parseCaptures E rt post (rv1.set i (.uint (decimalValue text)))).1,
            .ptr (.struct rt
              (p.parseCaptures E rt post (rv1.set i (.uint (decimalValue text)))).2),
            cache.LoadOrStore rt p)) := by
  have hlen1 : rv1.length = rt.fields.length := by
    have := parseCaptures_length E p rt pre rv
    rw [hpre] at this
    exact this.trans hlen
  have hs : f.Typ.supported = true := by
    unfold GoType.supported
    simp [hk]
  obtain ⟨hl, old, hold⟩ := plain_field_entry rt p hp hwf rv1 hlen1 i f hf hx h1 h2 hs
  have hpm := parseMatch_plain_unsigned E p rt rv1 f.Name text i f old hl hf hold hk
  have e64 : (2 : Nat) ^ 64 - 1 = maxUint64 := by decide
  rw [ParseUint_literal text hlit] at hpm
  refine ⟨?_, ?_, ?_⟩
  · intro hout
    rw [e64] at hout
    rw [if_neg (Nat.not_le.mpr hout)] at hpm
    simp only [ne_eq, reduceCtorEq, not_false_eq_true, if_true] at hpm
    exact Parse_capture_fails E cache hc rt p hp data rv r pre post f.Name text hcap rv1 hpre
      _ _ hpm
  · intro hin hout
    rw [e64] at hin
    rw [if_pos hin] at hpm
    have hr : decimalValue text > 2 ^ (f.Typ.kind.Bits E.word) - 1 := hout
    simp only [ne_eq, not_true_eq_false, if_false, hr, if_true] at hpm
    exact Parse_capture_fails E cache hc rt p hp data rv r pre post f.Name text hcap rv1 hpre
      _ _ hpm
  · intro hin
    rw [if_pos (unsigned_range_uint64 E.word f.Typ.kind hk _ hin)] at hpm
    have hr : ¬ (decimalValue text > 2 ^ (f.Typ.kind.Bits E.word) - 1) := by omega
    simp only [ne_eq, not_true_eq_false, if_false, hr] at hpm
    rw [wrapUint_of_range _ _ hin] at hpm
    rw [Parse_at_capture E cache hc rt p hp data rv r pre post f.Name text hcap rv1 hpre,
      parseCaptures_cons, hpm]
    simp

/-- Witness for C4, amended: `256` into a `uint8` field fails with the cannot-represent
error and the field keeps its value. -/
theorem Parse_unsigned_literal_witness :
    Parse env64 [] (ascii "256")
        (.ptr (.struct (oneField (plainType "uint8" .Uint8)) [.uint 7]))
        (oneGroup (ascii "256")) =
      (.err (.cannotRepresent 256 "uint8"),
        .ptr (.struct (oneField (plainType "uint8" .Uint8)) [.uint 7]),
        Cache.LoadOrStore [] (oneField (plainType "uint8" .Uint8))
          { byName := [("N", { i := 0, utyp := .notUnmarshaler,
                               typ := some (plainType "uint8" .Uint8) })] }) :=
  (Parse_unsigned_literal env64 [] CacheInv_nil (oneField (plainType "uint8" .Uint8))
    { byName := [("N", { i := 0, utyp := .notUnmarshaler,
                         typ := some (plainType "uint8" .Uint8) })] }
    rfl (by decide) [.uint 7] rfl (ascii "256") (oneGroup (ascii "256")) [] [] (ascii "256") 0
    (exportedField "N" (plainType "uint8" .Uint8)) rfl rfl rfl rfl rfl rfl rfl [.uint 7] rfl).2.1
    (by decide) (by decide)

/-- C5 fails as stated: `+5` is not a base-10 integer literal in the grammar of the
specification (an optional `-`, then digits), it has the non-digit character `+`, and
`Parse` into an `int` field returns nil and sets the field to 5. -/
theorem Parse_int_plus_sign :
    isMinusLiteral (ascii "+5") = false ∧
      (ascii "+5").all isDigit = false ∧
      (Parse env64 [] (ascii "+5") (.ptr (.struct (oneField (plainType "int" .Int)) [.int 0]))
        (oneGroup (ascii "+5"))).1 = .ok ∧
      (Parse env64 [] (ascii "+5") (.ptr (.struct (oneField (plainType "int" .Int)) [.int 0]))
        (oneGroup (ascii "+5"))).2.1 =
        .ptr (.struct (oneField (plainType "int" .Int)) [.int 5]) :=
  ⟨rfl, rfl, rfl, rfl⟩

/-- C5, amended: for an exported signed integer field and a capture text that is not an
optional sign `+` or `-` followed by one or more decimal digits, and for an exported
unsigned integer field and a capture text that is not one or more decimal digits, `Parse`
fails with the cannot-parse-as-integer error, resp. the cannot-parse-as-unsigned-integer
error, and does not write the field (the binder having reached the capture). -/
theorem Parse_not_a_literal (E : Env) (cache : Cache) (hc : CacheInv cache)
    (rt : StructType) (p : parser) (hp : newParser rt = .ok p) (hwf : rt.WF)
    (rv : List Value) (hlen : rv.length = rt.fields.length)
    (data : Bytes) (r : Regexp) (pre post : List (String × Bytes)) (text : Bytes)
    (i : Nat) (f : StructField) (hf : rt.fields[i]? = some f) (hx : f.PkgPath = "")
    (hcap : r.captures data = some (pre ++ (f.Name, text) :: post))
    (h1 : f.Typ.implementsTU = false) (h2 : f.Typ.ptrImplementsTU = false)
    (hk : (isSignedInt f.Typ.kind = true ∧ isIntLiteral text = false) ∨
      (isUnsignedInt f.Typ.kind = true ∧ isUintLiteral text = false))
    (rv1 : List Value) (hpre : p.parseCaptures E rt pre rv = (.ok, rv1)) :
    Parse E cache data (.ptr (.struct rt rv)) r =
      (.err (if isSignedInt f.Typ.kind then .cannotParseInteger text
          else .cannotParseUnsigned text),
        .ptr (.struct rt rv1), cache.LoadOrStore rt p) := by
  have hlen1 : rv1.length = rt.fields.length := by
    have := parseCaptures_length E p rt pre rv
    rw [hpre] at this
    exact this.trans hlen
  have hs : f.Typ.supported = true := by
    unfold GoType.supported
    rcases hk with hk | hk <;> simp [hk.1]
  obtain ⟨hl, old, hold⟩ := plain_field_entry rt p hp hwf rv1 hlen1 i f hf hx h1 h2 hs
  rcases hk with ⟨hk, hlit⟩ | ⟨hk, hlit⟩
  · have hpm := parseMatch_plain_signed E p rt rv1 f.Name text i f old hl hf hold hk
    rw [if_pos (ParseInt_not_literal text hlit)] at hpm
    rw [hk]
    exact Parse_capture_fails E cache hc rt p hp data rv r pre post f.Name text hcap rv1 hpre
      _ _ hpm
  · have hpm := parseMatch_plain_unsigned E p rt rv1 f.Name text i f old hl hf hold hk
    obtain ⟨n, e, hu, _⟩ := ParseUint_not_literal text hlit
    rw [hu] at hpm
    simp only [ne_eq, reduceCtorEq, not_false_eq_true, if_true] at hpm
    have hsg : isSignedInt f.Typ.kind = false := by
      cases hk1 : f.Typ.kind <;> simp [isUnsignedInt, hk1] at hk <;> rfl
    rw [hsg]
    exact Parse_capture_fails E cache hc rt p hp data rv r pre post f.Name text hcap rv1 hpre
      _ _ hpm

/-- Witness for C5, amended: the hex-prefixed `0x1F` into an `int` field. -/
theorem Parse_not_a_literal_witness :
    Parse env64 [] (ascii "0x1F") (.ptr (.struct (oneField (plainType "int" .Int)) [.int 0]))
        (oneGroup (ascii "0x1F")) =
      (.err (.cannotParseInteger (ascii "0x1F")),
        .ptr (.struct (oneField (plainType "int" .Int)) [.int 0]),
        Cache.LoadOrStore [] (oneField (plainType "int" .Int))
          { byName := [("N", { i := 0, utyp := .notUnmarshaler,
                               typ := some (plainType "int" .Int) })] }) :=
  Parse_not_a_literal env64 [] CacheInv_nil (oneField (plainType "int" .Int))
    { byName := [("N", { i := 0, utyp := .notUnmarshaler,
                         typ := some (plainType "int" .Int) })] }
    rfl (by decide) [.int 0] rfl (ascii "0x1F") (oneGroup (ascii "0x1F")) [] [] (ascii "0x1F") 0
    (exportedField "N" (plainType "int" .Int)) rfl rfl rfl rfl rfl (Or.inl ⟨rfl, rfl⟩)
    [.int 0] rfl

/-- The texts C5 lists are no literals: the empty text, a text with a non-digit character,
with leading or trailing whitespace, with a hex prefix, and for unsigned fields a text
with a leading `-`. -/
theorem not_literal_examples :
    isIntLiteral (ascii "") = false ∧ isIntLiteral (ascii "12a") = false ∧
      isIntLiteral (ascii " 12") = false ∧ isIntLiteral (ascii "12 ") = false ∧
      isIntLiteral (ascii "0x1F") = false ∧ isUintLiteral (ascii "-12") = false ∧
      isUintLiteral (ascii "") = false :=
  ⟨rfl, rfl, rfl, rfl, rfl, rfl, rfl⟩

/-- C6: for a pointer to a struct whose plan builds and an input on which the pattern
reports no match, `Parse` returns `ErrNoMatch` and every field of the target has the value
it had before the call, whatever the plan cache holds. -/
theorem Parse_no_match (E : Env) (cache : Cache) (rt : StructType) (p : parser)
    (hp : newParser rt = .ok p) (data : Bytes) (rv : List Value) (r : Regexp)
    (hno : r.FindSubmatch data = none) :
    (Parse E cache data (.ptr (.struct rt rv)) r).1 = .err ErrNoMatch ∧
      (Parse E cache data (.ptr (.struct rt rv)) r).2.1 = .ptr (.struct rt rv) := by
  unfold Parse
  simp only [AnyValue.Kind, AnyValue.Elem, ne_eq, not_true_eq_false, if_false]
  cases cache.Load rt with
  | none => simp [hp, parser.parse, hno]
  | some q => simp [parser.parse, hno]

/-- Witness for C6: `stringInt` and an input the pattern of the first test row does not
match. -/
theorem Parse_no_match_witness :
    (Parse env64 [] (ascii "foo") (.ptr (.struct stringInt [.str (ascii "s"), .str [], .int 7]))
        reStringInt).1 = .err ErrNoMatch ∧
      (Parse env64 [] (ascii "foo") (.ptr (.struct stringInt [.str (ascii "s"), .str [], .int 7]))
        reStringInt).2.1 = .ptr (.struct stringInt [.str (ascii "s"), .str [], .int 7]) :=
  Parse_no_match env64 [] stringInt
    { byName := [("I", { i := 2, utyp := .notUnmarshaler, typ := some (plainType "int" .Int) }),
        ("S", { i := 0, utyp := .notUnmarshaler, typ := some (plainType "string" .String) })] }
    rfl (ascii "foo") _ reStringInt rfl

theorem parseCaptures_fails_of_mem (E : Env) (p : parser) (rt : StructType)
    (pre post : List (String × Bytes)) (c : String × Bytes)
    (hc : ∀ rv, (p.parseMatch E rt rv c.1 c.2).1 ≠ .ok) (rv : List Value) :
    (p.parseCaptures E rt (pre ++ c :: post) rv).1 ≠ .ok := by
  induction pre generalizing rv with
  | nil =>
    simp only [List.nil_append]
    rw [parseCaptures_cons, if_neg (hc rv)]
    exact hc rv
  | cons d pre ih =>
    simp only [List.cons_append]
    rw [parseCaptures_cons]
    split
    · exact ih _
    · assumption

theorem parseMatch_unmapped (E : Env) (p : parser) (rt : StructType) (rv : List Value)
    (name : String) (m : Bytes) (h : p.byName.lookup name = none) :
    p.parseMatch E rt rv name m = (.err (.noTargetField name), rv) := by
  unfold parser.parseMatch
  rw [h]

/-- C7: when the match has a capture whose label is not the name of an exported field of
the target's struct type (a label that names an unexported field included), `Parse`
fails; when the captures before it have bound, it fails with the no-target-field error
naming that label, and the struct is as those earlier captures left it: no capture after
it is applied. -/
theorem Parse_unmapped_capture (E : Env) (cache : Cache) (hc : CacheInv cache)
    (rt : StructType) (p : parser) (hp : newParser rt = .ok p)
    (data : Bytes) (rv : List Value) (r : Regexp) (pre post : List (String × Bytes))
    (name : String) (m : Bytes)
    (hcap : r.captures data = some (pre ++ (name, m) :: post))
    (hno : ∀ f ∈ rt.fields, f.PkgPath = "" → f.Name ≠ name) :
    (Parse E cache data (.ptr (.struct rt rv)) r).1 ≠ .ok ∧
      ∀ rv1, p.parseCaptures E rt pre rv = (.ok, rv1) →
        Parse E cache data (.ptr (.struct rt rv)) r =
          (.err (.noTargetField name), .ptr (.struct rt rv1), cache.LoadOrStore rt p) := by
  have hl := newParser_lookup_none rt p name hp hno
  constructor
  · rw [Parse_ptr_struct E cache hc rt p hp, parse_eq_parseCaptures E p rt data rv r _ hcap]
    apply parseCaptures_fails_of_mem E p rt pre post (name, m)
    intro rv2
    rw [parseMatch_unmapped E p rt rv2 name m hl]
    simp
  · intro rv1 hpre
    exact Parse_capture_fails E cache hc rt p hp data rv r pre post name m hcap rv1 hpre _ _
      (parseMatch_unmapped E p rt rv1 name m hl)

/-- Witness for C7: a capture named `x`, the name of the unexported field of `stringInt`,
after a capture that binds `S`. -/
theorem Parse_unmapped_capture_witness :
    Parse env64 [] (ascii "foo bar") (.ptr (.struct stringInt [.str [], .str [], .int 0]))
        reUnexported =
      (.err (.noTargetField "x"),
        .ptr (.struct stringInt [.str (ascii "foo"), .str [], .int 0]),
        Cache.LoadOrStore [] stringInt
          { byName := [("I", { i := 2, utyp := .notUnmarshaler,
                               typ := some (plainType "int" .Int) }),
            ("S", { i := 0, utyp := .notUnmarshaler,
                    typ := some (plainType "string" .String) })] }) :=
  (Parse_unmapped_capture env64 [] CacheInv_nil stringInt
    { byName := [("I", { i := 2, utyp := .notUnmarshaler, typ := some (plainType "int" .Int) }),
        ("S", { i := 0, utyp := .notUnmarshaler, typ := some (plainType "string" .String) })] }
    rfl (ascii "foo bar") [.str [], .str [], .int 0] reUnexported [("S", ascii "foo")] []
    "x" (ascii "bar") rfl (by decide)).2 [.str (ascii "foo"), .str [], .int 0] rfl

/-- C8, the code at the test row `a b 1`: the unnamed group `(.)` is looked up in the plan
under the empty name, and `Parse` returns the no-target-field error for `""` after
binding `S`; `I` is not bound. The test expects nil, `S = "a"` and `I = 1`. -/
theorem Parse_unnamed_group :
    Parse env64 [] (ascii "a b 1") (.ptr (.struct stringInt [.str [], .str [], .int 0]))
        reUnnamed =
      (.err (.noTargetField ""),
        .ptr (.struct stringInt [.str (ascii "a"), .str [], .int 0]),
        [(stringInt,
          { byName := [("I", { i := 2, utyp := .notUnmarshaler,
                               typ := some (plainType "int" .Int) }),
            ("S", { i := 0, utyp := .notUnmarshaler,
                    typ := some (plainType "string" .String) })] })]) := by
  rfl

/-- C9: when a struct type has an exported field whose type has no text-decoding
capability, by value or through a pointer, and is no byte slice, string or integer kind,
`newParser` fails with the unsupported-type error of such a field, and `Parse` on a target
of that type returns that error for every input and pattern, with the target and the
plan cache as they were. -/
theorem Parse_unsupported_field (cache : Cache) (hc : CacheInv cache) (rt : StructType)
    (f : StructField) (hf : f ∈ rt.fields) (hx : f.PkgPath = "")
    (hs : f.Typ.supported = false) :
    ∃ g ∈ rt.fields, g.PkgPath = "" ∧ g.Typ.supported = false ∧
      newParser rt = .error (.unsupportedType g.Typ.name) ∧
      ∀ (E : Env) (data : Bytes) (rv : List Value) (r : Regexp),
        Parse E cache data (.ptr (.struct rt rv)) r =
          (.err (.unsupportedType g.Typ.name), .ptr (.struct rt rv), cache) := by
  obtain ⟨g, hg, hgx, hgs, hnew⟩ :=
    newParserLoop_error rt.fields 0 { byName := [] } ⟨f, hf, hx, hs⟩
  refine ⟨g, hg, hgx, hgs, hnew, ?_⟩
  intro E data rv r
  have hnp : newParser rt = .error (.unsupportedType g.Typ.name) := hnew
  unfold Parse
  simp only [AnyValue.Kind, AnyValue.Elem, ne_eq, not_true_eq_false, if_false]
  cases hl : cache.Load rt with
  | none => simp only [hnp]
  | some q =>
    have := hc rt q hl
    rw [hnp] at this
    cases this

/-- Witness for C9: a struct with a `float64` field. -/
theorem Parse_unsupported_field_witness :
    ∃ g ∈ stringFloat.fields, g.PkgPath = "" ∧ g.Typ.supported = false ∧
      newParser stringFloat = .error (.unsupportedType g.Typ.name) ∧
      ∀ (E : Env) (data : Bytes) (rv : List Value) (r : Regexp),
        Parse E [] data (.ptr (.struct stringFloat rv)) r =
          (.err (.unsupportedType g.Typ.name), .ptr (.struct stringFloat rv), []) :=
  Parse_unsupported_field [] CacheInv_nil stringFloat
    (exportedField "F" (plainType "float64" .Float64)) (by decide) rfl rfl

/-- A pattern that names only the field `S` of a struct with a `float64` field: `Parse`
returns the unsupported-type error and `S` is not written. -/
theorem Parse_float_field_not_named :
    Parse env64 [] (ascii "abc") (.ptr (.struct stringFloat [.str [], .other []])) reOnlyS =
      (.err (.unsupportedType "float64"), .ptr (.struct stringFloat [.str [], .other []]),
        []) := by
  rfl

/-- C10: when `v` is not a pointer, or is a pointer whose element is not a struct value,
`Parse` returns the requires-pointer error, resp. the must-be-a-pointer-to-struct error,
whatever the input and the pattern, and leaves `v` and the plan cache as they were. -/
theorem Parse_invalid_target (E : Env) (cache : Cache) (data : Bytes) (v : AnyValue)
    (r : Regexp) (h : v.Kind ≠ .Ptr ∨ v.Elem.Kind ≠ .Struct) :
    Parse E cache data v r =
      (.err (if v.Kind ≠ .Ptr then .requiresPointer else .notPointerToStruct), v, cache) := by
  unfold Parse
  by_cases hk : v.Kind ≠ .Ptr
  · rw [if_pos hk, if_pos hk]
  · rw [if_neg hk, if_neg hk]
    have he : v.Elem.Kind ≠ .Struct := by
      rcases h with h | h
      · exact absurd h hk
      · exact h
    cases hv : v.Elem with
    | struct rt rv => rw [hv] at he; exact absurd rfl he
    | invalid => rfl
    | basic k => rfl
    | nilPtr => rfl
    | ptr e => rfl

/-- Witness for C10: a pointer to an `int`. -/
theorem Parse_invalid_target_witness :
    Parse env64 [] (ascii "3") (.ptr (.basic .Int)) (oneGroup (ascii "3")) =
      (.err .notPointerToStruct, .ptr (.basic .Int), []) :=
  Parse_invalid_target env64 [] (ascii "3") (.ptr (.basic .Int)) (oneGroup (ascii "3"))
    (Or.inr (by decide))

/-! ## `MustParse` -/

theorem store_fst (rv : List Value) (i : Nat) (o : Option Value) :
    (store rv i o).1 = .ok ∨ ∃ msg, (store rv i o).1 = .runtimePanic msg := by
  cases o with
  | none => exact Or.inr ⟨_, rfl⟩
  | some x => exact Or.inl rfl

/-- One iteration of the binder ends with `.ok`, an error or a run-time panic, never with
the `panic(err)` of `MustParse`. -/
theorem parseMatch_ne_panicErr (E : Env) (p : parser) (rt : StructType) (rv : List Value)
    (name : String) (m : Bytes) (e : Err) : (p.parseMatch E rt rv name m).1 ≠ .panicErr e := by
  have hstore : ∀ i o, (store rv i o).1 ≠ .panicErr e := by
    intro i o
    rcases store_fst rv i o with h | ⟨msg, h⟩ <;> rw [h] <;> simp
  unfold parser.parseMatch
  repeat' split
  all_goals try simp only []
  all_goals repeat' split
  all_goals first
    | exact hstore _ _
    | simp

theorem parseCaptures_ne_panicErr (E : Env) (p : parser) (rt : StructType)
    (caps : List (String × Bytes)) (rv : List Value) (e : Err) :
    (p.parseCaptures E rt caps rv).1 ≠ .panicErr e := by
  induction caps generalizing rv with
  | nil => simp [parser.parseCaptures]
  | cons c caps ih =>
    rw [parseCaptures_cons]
    split
    · exact ih _
    · exact parseMatch_ne_panicErr E p rt rv c.1 c.2 e

theorem captures_of_FindSubmatch (r : Regexp) (data : Bytes) (ms : List Bytes)
    (h : r.FindSubmatch data = some ms) :
    r.captures data = some ((r.SubexpNames.zip ms).drop 1) := by
  simp [Regexp.captures, h]

theorem parse_ne_panicErr (E : Env) (p : parser) (data : Bytes) (rt : StructType)
    (rv : List Value) (r : Regexp) (e : Err) : (p.parse E data rt rv r).1 ≠ .panicErr e := by
  cases hm : r.FindSubmatch data with
  | none => simp [parser.parse, hm]
  | some ms =>
    rw [parse_eq_parseCaptures E p rt data rv r _ (captures_of_FindSubmatch r data ms hm)]
    exact parseCaptures_ne_panicErr E p rt _ rv e

theorem Parse_ne_panicErr (E : Env) (cache : Cache) (data : Bytes) (v : AnyValue)
    (r : Regexp) (e : Err) : (Parse E cache data v r).1 ≠ .panicErr e := by
  unfold Parse
  repeat' split
  all_goals first
    | exact parse_ne_panicErr E _ data _ _ r e
    | simp

/-- C11: `MustParse` panics with the error `e` exactly when `Parse` returns the non-nil
error `e`; when `Parse` returns nil `MustParse` returns normally; `MustParse` never
returns an error; and in every case the target and the plan cache are left as `Parse`
leaves them. -/
theorem MustParse_eq_Parse (E : Env) (cache : Cache) (data : Bytes) (v : AnyValue)
    (r : Regexp) :
    (∀ e, (MustParse E cache data v r).1 = .panicErr e ↔ (Parse E cache data v r).1 = .err e) ∧
      ((Parse E cache data v r).1 = .ok → (MustParse E cache data v r).1 = .ok) ∧
      (∀ e, (MustParse E cache data v r).1 ≠ .err e) ∧
      (MustParse E cache data v r).2 = (Parse E cache data v r).2 := by
  have hne := Parse_ne_panicErr E cache data v r
  unfold MustParse
  rcases hP : Parse E cache data v r with ⟨res, v1, c1⟩
  rw [hP] at hne
  cases res with
  | ok => simp
  | err e0 => simp
  | runtimePanic msg => simp
  | panicErr e0 => exact absurd rfl (hne e0)

/-- The panic of `MustParse` on the `128` of C3 and its normal return on a row of
`TestParse`. -/
theorem MustParse_examples :
    (MustParse env64 [] (ascii "128")
        (.ptr (.struct (oneField (plainType "int8" .Int8)) [.int 0]))
        (oneGroup (ascii "128"))).1 = .panicErr (.cannotRepresent 128 "int8") ∧
      MustParse env64 [] (ascii "[foo, 3]")
          (.ptr (.struct stringInt [.str [], .str [], .int 0])) reStringInt =
        Parse env64 [] (ascii "[foo, 3]")
          (.ptr (.struct stringInt [.str [], .str [], .int 0])) reStringInt :=
  ⟨rfl, rfl⟩

/-! ## Fields that use `UnmarshalText` -/

theorem newFieldParser_val (i : Nat) (f : StructField) (h : f.Typ.implementsTU = true) :
    newFieldParser i f = .ok { i := i, utyp := .unmarshalerVal, typ := none } := by
  unfold newFieldParser
  rw [if_pos h]

theorem newFieldParser_ptr (i : Nat) (f : StructField) (h1 : f.Typ.implementsTU = false)
    (h2 : f.Typ.ptrImplementsTU = true) :
    newFieldParser i f = .ok { i := i, utyp := .unmarshalerPtr, typ := none } := by
  unfold newFieldParser
  rw [h1, if_neg (by simp), if_pos h2]

theorem parseMatch_val (E : Env) (p : parser) (rt : StructType) (rv : List Value)
    (name : String) (m : Bytes) (i : Nat) (f : StructField) (old : Value)
    (hl : p.byName.lookup name = some { i := i, utyp := .unmarshalerVal, typ := none })
    (hf : rt.fields[i]? = some f) (hv : rv[i]? = some old) :
    p.parseMatch E rt rv name m = (decodeResult name (E.UnmarshalText f.Typ old m).2, rv) := by
  unfold parser.parseMatch
  rw [hl]
  simp only [hf, hv, ne_eq, reduceCtorEq, not_false_eq_true, if_true]
  cases (E.UnmarshalText f.Typ old m).2 <;> rfl

theorem parseMatch_ptr (E : Env) (p : parser) (rt : StructType) (rv : List Value)
    (name : String) (m : Bytes) (i : Nat) (f : StructField) (old : Value)
    (hl : p.byName.lookup name = some { i := i, utyp := .unmarshalerPtr, typ := none })
    (hf : rt.fields[i]? = some f) (hv : rv[i]? = some old) :
    p.parseMatch E rt rv name m =
      (decodeResult name (E.UnmarshalText f.Typ old m).2,
        rv.set i (E.UnmarshalText f.Typ old m).1) := by
  unfold parser.parseMatch
  rw [hl]
  simp only [hf, hv, ne_eq, reduceCtorEq, not_false_eq_true, if_true]
  rcases E.UnmarshalText f.Typ old m with ⟨field1, _ | e⟩ <;> rfl

/-- The plan entry of an exported field whose type has the text-decoding capability, and
what one capture on that field does: the decode operation gets the matched bytes, its
error decides the outcome, and the field is the receiver only in the by-pointer form. -/
theorem decode_field_entry (E : Env) (rt : StructType) (p : parser)
    (hp : newParser rt = .ok p) (hwf : rt.WF) (i : Nat) (f : StructField)
    (hf : rt.fields[i]? = some f) (hx : f.PkgPath = "")
    (htu : f.Typ.implementsTU = true ∨ f.Typ.ptrImplementsTU = true)
    (rv : List Value) (old : Value) (hv : rv[i]? = some old) (m : Bytes) :
    p.byName.lookup f.Name =
        some { i := i,
               utyp := if f.Typ.implementsTU then .unmarshalerVal else .unmarshalerPtr,
               typ := none } ∧
      p.parseMatch E rt rv f.Name m =
        (decodeResult f.Name (E.UnmarshalText f.Typ old m).2,
          if f.Typ.implementsTU then rv else rv.set i (E.UnmarshalText f.Typ old m).1) := by
  obtain ⟨fp, hfp, hl⟩ := newParser_complete rt p hp hwf i f hf hx
  cases hv1 : f.Typ.implementsTU with
  | true =>
    rw [newFieldParser_val i f hv1] at hfp
    cases hfp
    exact ⟨hl, parseMatch_val E p rt rv f.Name m i f old hl hf hv⟩
  | false =>
    have h2 : f.Typ.ptrImplementsTU = true := by
      rcases htu with h | h
      · rw [hv1] at h; cases h
      · exact h
    rw [newFieldParser_ptr i f hv1 h2] at hfp
    cases hfp
    exact ⟨hl, parseMatch_ptr E p rt rv f.Name m i f old hl hf hv⟩

/-- C12: for an exported field whose type implements `encoding.TextUnmarshaler`, directly
or through a pointer, whatever its kind: the plan entry is one of the two unmarshaler
forms and records no type for the built-in conversion; and when the binder reaches a
capture that labels the field, `UnmarshalText` of the field's type is called with the
field's value and the matched bytes as they are, `Parse` fails with its error if it
reports one, and otherwise goes on with the later captures, the field holding what the
method left in its receiver through the pointer. -/
theorem Parse_uses_UnmarshalText (E : Env) (cache : Cache) (hc : CacheInv cache)
    (rt : StructType) (p : parser) (hp : newParser rt = .ok p) (hwf : rt.WF)
    (rv : List Value) (data : Bytes) (r : Regexp) (pre post : List (String × Bytes))
    (text : Bytes) (i : Nat) (f : StructField) (hf : rt.fields[i]? = some f)
    (hx : f.PkgPath = "")
    (hcap : r.captures data = some (pre ++ (f.Name, text) :: post))
    (htu : f.Typ.implementsTU = true ∨ f.Typ.ptrImplementsTU = true)
    (rv1 : List Value) (hpre : p.parseCaptures E rt pre rv = (.ok, rv1))
    (old : Value) (hold : rv1[i]? = some old) :
    (∃ fp, p.byName.lookup f.Name = some fp ∧ fp.i = i ∧ fp.utyp ≠ .notUnmarshaler ∧
        fp.typ = none) ∧
      Parse E cache data (.ptr (.struct rt rv)) r =
        (match (E.UnmarshalText f.Typ old text).2 with
          | some cause =>
            (.err (.unmarshalText f.Name cause),
              .ptr (.struct rt (if f.Typ.implementsTU then rv1
                else rv1.set i (E.UnmarshalText f.Typ old text).1)),
              cache.LoadOrStore rt p)
          | none =>
            ((p.parseCaptures E rt post (if f.Typ.implementsTU then rv1
                else rv1.set i (E.UnmarshalText f.Typ old text).1)).1,
              .ptr (.struct rt (p.parseCaptures E rt post (if f.Typ.implementsTU then rv1
                else rv1.set i (E.UnmarshalText f.Typ old text).1)).2),
              cache.LoadOrStore rt p)) := by
  obtain ⟨hl, hm⟩ := decode_field_entry E rt p hp hwf i f hf hx htu rv1 old hold text
  constructor
  · refine ⟨_, hl, rfl, ?_, rfl⟩
    cases f.Typ.implementsTU <;> simp
  · rw [Parse_at_capture E cache hc rt p hp data rv r pre post f.Name text hcap rv1 hpre,
      parseCaptures_cons, hm]
    cases (E.UnmarshalText f.Typ old text).2 <;> simp [decodeResult]

/-- Witness for C12: `date = 2018-12-15T00:00:00Z` into `unmarshaler` returns nil and
`T` is 2018-12-15 00:00:00 UTC. -/
theorem Parse_uses_UnmarshalText_witness :
    Parse envTime [] (ascii "date = 2018-12-15T00:00:00Z")
        (.ptr (.struct unmarshaler [.str [], zeroTime])) reDate =
      (.ok, .ptr (.struct unmarshaler [.str (ascii "date"), timeDate 2018 12 15 0 0 0]),
        Cache.LoadOrStore [] unmarshaler
          { byName := [("T", { i := 1, utyp := .unmarshalerPtr, typ := none }),
            ("S", { i := 0, utyp := .notUnmarshaler,
                    typ := some (plainType "string" .String) })] }) :=
  (Parse_uses_UnmarshalText envTime [] CacheInv_nil unmarshaler
    { byName := [("T", { i := 1, utyp := .unmarshalerPtr, typ := none }),
        ("S", { i := 0, utyp := .notUnmarshaler, typ := some (plainType "string" .String) })] }
    rfl (by decide) [.str [], zeroTime] (ascii "date = 2018-12-15T00:00:00Z") reDate
    [("S", ascii "date")] [] (ascii "2018-12-15T00:00:00Z") 1 (exportedField "T" timeType)
    rfl rfl rfl (Or.inr rfl) [.str (ascii "date"), zeroTime] rfl zeroTime rfl).2

/-- C15: when the binder reaches a capture that labels an exported field whose type has
the text-decoding capability, and `UnmarshalText` reports an error on the matched bytes,
`Parse` fails with the conversion-failed error that carries the capture label and the
reported cause; no later capture is applied: the struct is as the earlier captures left
it, but for what the method left in the field when it is called through the pointer. -/
theorem Parse_decode_error (E : Env) (cache : Cache) (hc : CacheInv cache)
    (rt : StructType) (p : parser) (hp : newParser rt = .ok p) (hwf : rt.WF)
    (rv : List Value) (data : Bytes) (r : Regexp) (pre post : List (String × Bytes))
    (text : Bytes) (i : Nat) (f : StructField) (hf : rt.fields[i]? = some f)
    (hx : f.PkgPath = "")
    (hcap : r.captures data = some (pre ++ (f.Name, text) :: post))
    (htu : f.Typ.implementsTU = true ∨ f.Typ.ptrImplementsTU = true)
    (rv1 : List Value) (hpre : p.parseCaptures E rt pre rv = (.ok, rv1))
    (old : Value) (hold : rv1[i]? = some old) (cause : String)
    (herr : (E.UnmarshalText f.Typ old text).2 = some cause) :
    Parse E cache data (.ptr (.struct rt rv)) r =
      (.err (.unmarshalText f.Name cause),
        .ptr (.struct rt (if f.Typ.implementsTU then rv1
          else rv1.set i (E.UnmarshalText f.Typ old text).1)),
        cache.LoadOrStore rt p) := by
  obtain ⟨_, hm⟩ := decode_field_entry E rt p hp hwf i f hf hx htu rv1 old hold text
  rw [herr] at hm
  exact Parse_capture_fails E cache hc rt p hp data rv r pre post f.Name text hcap rv1 hpre
    _ _ hm

/-- Witness for C15: `date = tomorrow` into `unmarshaler`. -/
theorem Parse_decode_error_witness :
    Parse envTime [] (ascii "date = tomorrow")
        (.ptr (.struct unmarshaler [.str [], timeDate 2018 12 15 0 0 0])) reTomorrow =
      (.err (.unmarshalText "T" "parsing time: cannot parse"),
        .ptr (.struct unmarshaler [.str (ascii "date"), zeroTime]),
        Cache.LoadOrStore [] unmarshaler
          { byName := [("T", { i := 1, utyp := .unmarshalerPtr, typ := none }),
            ("S", { i := 0, utyp := .notUnmarshaler,
                    typ := some (plainType "string" .String) })] }) :=
  Parse_decode_error envTime [] CacheInv_nil unmarshaler
    { byName := [("T", { i := 1, utyp := .unmarshalerPtr, typ := none }),
        ("S", { i := 0, utyp := .notUnmarshaler, typ := some (plainType "string" .String) })] }
    rfl (by decide) [.str [], timeDate 2018 12 15 0 0 0] (ascii "date = tomorrow") reTomorrow
    [("S", ascii "date")] [] (ascii "tomorrow") 1 (exportedField "T" timeType)
    rfl rfl rfl (Or.inr rfl) [.str (ascii "date"), timeDate 2018 12 15 0 0 0] rfl
    (timeDate 2018 12 15 0 0 0) rfl "parsing time: cannot parse" rfl

/-- C17 fails as stated: type `level` has `UnmarshalText` both by value and through a
pointer, the plan records the by-value form `unmarshalerVal`, and `Parse` decodes into a
copy: the method would leave 7 in its receiver and the field keeps its 0. -/
theorem newParser_records_by_value :
    levelType.implementsTU = true ∧ levelType.ptrImplementsTU = true ∧
      newParser (oneField levelType) =
        .ok { byName := [("N", { i := 0, utyp := .unmarshalerVal, typ := none })] } ∧
      (envTime.UnmarshalText levelType (.int 0) (ascii "7")).1 = .int 7 ∧
      (Parse envTime [] (ascii "7") (.ptr (.struct (oneField levelType) [.int 0]))
        (oneGroup (ascii "7"))).1 = .ok ∧
      (Parse envTime [] (ascii "7") (.ptr (.struct (oneField levelType) [.int 0]))
        (oneGroup (ascii "7"))).2.1 = .ptr (.struct (oneField levelType) [.int 0]) :=
  ⟨rfl, rfl, rfl, rfl, rfl, rfl⟩

/-- C17, amended: for an exported field whose type has the text-decoding capability
through a pointer: when the type has it by value as well, the plan builder records the
by-value form, and a capture on the field calls the decode operation on a copy, the
field itself staying as it was; when the type has it through the pointer only, the plan
builder records the by-pointer form, and a capture on the field leaves in the field what
the decode operation left in its receiver. -/
theorem newParser_by_value_first (E : Env) (rt : StructType) (p : parser)
    (hp : newParser rt = .ok p) (hwf : rt.WF) (i : Nat) (f : StructField)
    (hf : rt.fields[i]? = some f) (hx : f.PkgPath = "")
    (hptr : f.Typ.ptrImplementsTU = true)
    (rv : List Value) (old : Value) (hv : rv[i]? = some old) (m : Bytes) :
    (f.Typ.implementsTU = true →
        p.byName.lookup f.Name = some { i := i, utyp := .unmarshalerVal, typ := none } ∧
        p.parseMatch E rt rv f.Name m =
          (decodeResult f.Name (E.UnmarshalText f.Typ old m).2, rv)) ∧
      (f.Typ.implementsTU = false →
        p.byName.lookup f.Name = some { i := i, utyp := .unmarshalerPtr, typ := none } ∧
        p.parseMatch E rt rv f.Name m =
          (decodeResult f.Name (E.UnmarshalText f.Typ old m).2,
            rv.set i (E.UnmarshalText f.Typ old m).1)) := by
  have h := decode_field_entry E rt p hp hwf i f hf hx (Or.inr hptr) rv old hv m
  constructor
  · intro hval
    simpa [hval] using h
  · intro hval
    simpa [hval] using h

/-- Witness for C17, amended: the field of type `level`. -/
theorem newParser_by_value_first_witness :
    List.lookup "N"
        (parser.mk [("N", { i := 0, utyp := .unmarshalerVal, typ := none })]).byName =
        some { i := 0, utyp := .unmarshalerVal, typ := none } ∧
      parser.parseMatch envTime
          { byName := [("N", { i := 0, utyp := .unmarshalerVal, typ := none })] }
          (oneField levelType) [.int 0] "N" (ascii "7") =
        (decodeResult "N" (envTime.UnmarshalText levelType (.int 0) (ascii "7")).2,
          [.int 0]) :=
  (newParser_by_value_first envTime (oneField levelType)
    { byName := [("N", { i := 0, utyp := .unmarshalerVal, typ := none })] }
    rfl (by decide) 0 (exportedField "N" levelType) rfl rfl rfl [.int 0] (.int 0) rfl
    (ascii "7")).1 rfl

/-! ## What a failing call leaves behind -/

/-- One iteration of the binder has not written the struct, or it ends with `.ok`, or
its plan entry is of the by-pointer form. -/
theorem parseMatch_cases (E : Env) (p : parser) (rt : StructType) (rv : List Value)
    (name : String) (m : Bytes) :
    (p.parseMatch E rt rv name m).2 = rv ∨ (p.parseMatch E rt rv name m).1 = .ok ∨
      ∃ fp, p.byName.lookup name = some fp ∧ fp.utyp = .unmarshalerPtr := by
  cases hl : p.byName.lookup name with
  | none =>
    unfold parser.parseMatch
    rw [hl]
    exact Or.inl rfl
  | some fp =>
    have hstore : ∀ i o, (store rv i o).2 = rv ∨ (store rv i o).1 = .ok ∨
        ∃ fp1, some fp = some fp1 ∧ fp1.utyp = .unmarshalerPtr := by
      intro i o
      cases o with
      | none => exact Or.inl rfl
      | some x => exact Or.inr (Or.inl rfl)
    cases hut : fp.utyp with
    | unmarshalerPtr => exact Or.inr (Or.inr ⟨fp, rfl, hut⟩)
    | unmarshalerVal =>
      unfold parser.parseMatch
      rw [hl]
      simp only [hut]
      repeat' split
      all_goals first
        | exact Or.inl rfl
        | exact Or.inr (Or.inl rfl)
        | simp_all
    | notUnmarshaler =>
      unfold parser.parseMatch
      rw [hl]
      simp only [hut]
      repeat' split
      all_goals first
        | exact Or.inl rfl
        | exact Or.inr (Or.inl rfl)
        | exact hstore _ _
        | simp_all

/-- An iteration of the binder that ends with an error has not written the struct, unless
it decoded through a pointer. -/
theorem parseMatch_err_snd (E : Env) (p : parser) (rt : StructType) (rv : List Value)
    (name : String) (m : Bytes) (e : Err) (h : (p.parseMatch E rt rv name m).1 = .err e)
    (hptr : ∀ fp, p.byName.lookup name = some fp → fp.utyp ≠ .unmarshalerPtr) :
    (p.parseMatch E rt rv name m).2 = rv := by
  rcases parseMatch_cases E p rt rv name m with h1 | h1 | ⟨fp, hl, hu⟩
  · exact h1
  · rw [h1] at h; cases h
  · exact absurd hu (hptr fp hl)

/-- C13 fails as stated: `date = tomorrow` into `unmarshaler` fails at the capture `T` with
a decode error, and the field `T`, which the failing capture names, does not have the
value it had before the call: `(*time.Time).UnmarshalText` has assigned the zero time to
its receiver, the field itself. -/
theorem Parse_decode_error_writes_field :
    (Parse envTime [] (ascii "date = tomorrow")
        (.ptr (.struct unmarshaler [.str [], timeDate 2018 12 15 0 0 0])) reTomorrow).1 =
        .err (.unmarshalText "T" "parsing time: cannot parse") ∧
      (AnyValue.ptr (.struct unmarshaler [.str [], timeDate 2018 12 15 0 0 0])).fields[1]? =
        some (timeDate 2018 12 15 0 0 0) ∧
      (Parse envTime [] (ascii "date = tomorrow")
        (.ptr (.struct unmarshaler [.str [], timeDate 2018 12 15 0 0 0]))
        reTomorrow).2.1.fields[1]? = some zeroTime ∧
      zeroTime ≠ timeDate 2018 12 15 0 0 0 :=
  ⟨rfl, rfl, rfl, by decide⟩

/-- C13, amended: when the captures before the k-th have bound and the k-th fails with an
error, `Parse` returns that error and nothing after the failure is applied or rolled
back: every field but the one the failing capture's plan entry points to is as the
earlier captures left it; so is that field too, unless the entry is of the by-pointer
unmarshaler form (then it holds what the decode operation left in it); and every field
that no capture up to the k-th points to has the value it had before the call. -/
theorem Parse_fails_at_capture (E : Env) (cache : Cache) (hc : CacheInv cache)
    (rt : StructType) (p : parser) (hp : newParser rt = .ok p)
    (data : Bytes) (rv : List Value) (r : Regexp) (pre post : List (String × Bytes))
    (name : String) (m : Bytes)
    (hcap : r.captures data = some (pre ++ (name, m) :: post))
    (rv1 : List Value) (hpre : p.parseCaptures E rt pre rv = (.ok, rv1))
    (e : Err) (hfail : (p.parseMatch E rt rv1 name m).1 = .err e) :
    (Parse E cache data (.ptr (.struct rt rv)) r).1 = .err e ∧
      (∀ j, (∀ fp, p.byName.lookup name = some fp → fp.i ≠ j) →
        (Parse E cache data (.ptr (.struct rt rv)) r).2.1.fields[j]? = rv1[j]?) ∧
      ((∀ fp, p.byName.lookup name = some fp → fp.utyp ≠ .unmarshalerPtr) →
        (Parse E cache data (.ptr (.struct rt rv)) r).2.1.fields = rv1) ∧
      (∀ j, (∀ c ∈ pre ++ [(name, m)], ∀ fp, p.byName.lookup c.1 = some fp → fp.i ≠ j) →
        (Parse E cache data (.ptr (.struct rt rv)) r).2.1.fields[j]? = rv[j]?) := by
  have hP : Parse E cache data (.ptr (.struct rt rv)) r =
      (.err e, .ptr (.struct rt (p.parseMatch E rt rv1 name m).2), cache.LoadOrStore rt p) :=
    Parse_capture_fails E cache hc rt p hp data rv r pre post name m hcap rv1 hpre e _
      (Prod.ext hfail rfl)
  have hrv1 : rv1 = (p.parseCaptures E rt pre rv).2 := by rw [hpre]
  rw [hP]
  refine ⟨rfl, ?_, ?_, ?_⟩
  · intro j hj
    exact parseMatch_frame E p rt rv1 name m j hj
  · intro hptr
    exact parseMatch_err_snd E p rt rv1 name m e hfail hptr
  · intro j hj
    simp only [AnyValue.fields]
    rw [parseMatch_frame E p rt rv1 name m j
      (hj (name, m) (List.mem_append_right _ (List.mem_singleton_self _))), hrv1]
    exact parseCaptures_frame E p rt pre rv j
      (fun c hcm => hj c (List.mem_append_left _ hcm))

/-- Witness for C13, amended: `foo bar` into `stringInt` with the second group named `x`:
`S` holds `foo` from the first capture, `x` and `I` are as before the call. -/
theorem Parse_fails_at_capture_witness :
    (Parse env64 [] (ascii "foo bar") (.ptr (.struct stringInt [.str [], .str [], .int 0]))
        reUnexported).2.1.fields = [.str (ascii "foo"), .str [], .int 0] :=
  (Parse_fails_at_capture env64 [] CacheInv_nil stringInt
    { byName := [("I", { i := 2, utyp := .notUnmarshaler, typ := some (plainType "int" .Int) }),
        ("S", { i := 0, utyp := .notUnmarshaler, typ := some (plainType "string" .String) })] }
    rfl (ascii "foo bar") [.str [], .str [], .int 0] reUnexported [("S", ascii "foo")] []
    "x" (ascii "bar") rfl [.str (ascii "foo"), .str [], .int 0] rfl (.noTargetField "x")
    rfl).2.2.1 (by decide)

/-- C19: an exported field that no capture group of the pattern names, and every
unexported field, has the same value after `Parse` as before it, whether `Parse` returns
nil or fails. -/
theorem Parse_frame (E : Env) (cache : Cache) (hc : CacheInv cache) (rt : StructType)
    (p : parser) (hp : newParser rt = .ok p) (data : Bytes) (rv : List Value) (r : Regexp)
    (j : Nat) (f : StructField) (hf : rt.fields[j]? = some f)
    (hnot : f.PkgPath ≠ "" ∨ ∀ name ∈ r.SubexpNames, name ≠ f.Name) :
    (Parse E cache data (.ptr (.struct rt rv)) r).2.1.fields[j]? = rv[j]? := by
  rw [Parse_ptr_struct E cache hc rt p hp]
  simp only [AnyValue.fields]
  cases hm : r.FindSubmatch data with
  | none => simp [parser.parse, hm]
  | some ms =>
    rw [parse_eq_parseCaptures E p rt data rv r _ (captures_of_FindSubmatch r data ms hm)]
    apply parseCaptures_frame
    intro c hcm fp hl hij
    obtain ⟨g, hg, hgx, hgn, _⟩ := newParser_sound rt p c.1 fp hp hl
    rw [hij, hf] at hg
    cases hg
    rcases hnot with hnx | hnn
    · exact hnx hgx
    · have hmem : c.1 ∈ r.SubexpNames := by
        have h1 : c ∈ r.SubexpNames.zip ms := List.mem_of_mem_drop hcm
        have h2 : (c.1, c.2) ∈ r.SubexpNames.zip ms := h1
        exact (List.of_mem_zip h2).1
      exact hnn c.1 hmem hgn.symm

/-- Witness for C19: the unexported field `x` of `stringInt` on the row `[foo, 3]`. -/
theorem Parse_frame_witness :
    (Parse env64 [] (ascii "[foo, 3]")
        (.ptr (.struct stringInt [.str [], .str (ascii "kept"), .int 0]))
        reStringInt).2.1.fields[1]? =
      [Value.str [], .str (ascii "kept"), .int 0][1]? :=
  Parse_frame env64 [] CacheInv_nil stringInt
    { byName := [("I", { i := 2, utyp := .notUnmarshaler, typ := some (plainType "int" .Int) }),
        ("S", { i := 0, utyp := .notUnmarshaler, typ := some (plainType "string" .String) })] }
    rfl (ascii "[foo, 3]") [.str [], .str (ascii "kept"), .int 0] reStringInt 1
    { Name := "x", PkgPath := "github.com/cespare/hasty", Typ := plainType "string" .String }
    rfl (Or.inl (by decide))

/-- C18 fails as stated: `stringFloat` has an unsupported exported field, the cache is
empty, the pattern reports no match on `zzz`, and `Parse` fails with the unsupported-type
error, not with `ErrNoMatch`. -/
theorem Parse_builds_plan_first :
    reOnlyS.FindSubmatch (ascii "zzz") = none ∧
      Parse env64 [] (ascii "zzz") (.ptr (.struct stringFloat [.str [], .other []])) reOnlyS =
        (.err (.unsupportedType "float64"), .ptr (.struct stringFloat [.str [], .other []]),
          []) :=
  ⟨rfl, rfl⟩

/-- C18, amended: `Parse` obtains the binding plan before it runs the pattern: on an
input on which the pattern reports no match, `Parse` on a pointer to a struct fails with
`ErrNoMatch` when the plan of the struct type builds, and with the error of `newParser`
when it does not; the target is unchanged in both cases. -/
theorem Parse_no_match_after_plan (E : Env) (cache : Cache) (hc : CacheInv cache)
    (rt : StructType) (data : Bytes) (rv : List Value) (r : Regexp)
    (hno : r.FindSubmatch data = none) :
    Parse E cache data (.ptr (.struct rt rv)) r =
      match newParser rt with
      | .ok p => (.err ErrNoMatch, .ptr (.struct rt rv), cache.LoadOrStore rt p)
      | .error e => (.err e, .ptr (.struct rt rv), cache) := by
  cases hn : newParser rt with
  | ok p =>
    rw [Parse_ptr_struct E cache hc rt p hn]
    simp [parser.parse, hno]
  | error e =>
    unfold Parse
    simp only [AnyValue.Kind, AnyValue.Elem, ne_eq, not_true_eq_false, if_false]
    cases hl : cache.Load rt with
    | none => simp only [hn]
    | some q =>
      have := hc rt q hl
      rw [hn] at this
      cases this

/-- Witness for C18, amended: `stringInt`, whose plan builds, and an input the pattern
does not match. -/
theorem Parse_no_match_after_plan_witness :
    Parse env64 [] (ascii "zzz") (.ptr (.struct stringInt [.str [], .str [], .int 0]))
        reStringInt =
      match newParser stringInt with
      | .ok p => (.err ErrNoMatch, .ptr (.struct stringInt [.str [], .str [], .int 0]),
          Cache.LoadOrStore [] stringInt p)
      | .error e => (.err e, .ptr (.struct stringInt [.str [], .str [], .int 0]), []) :=
  Parse_no_match_after_plan env64 [] CacheInv_nil stringInt (ascii "zzz")
    [.str [], .str [], .int 0] reStringInt rfl

/-! ## The plan cache -/

theorem Reachable_CacheInv (c : Cache) (h : Reachable c) : CacheInv c := by
  induction h with
  | empty => exact CacheInv_nil
  | call E cache data v r _ ih => exact Parse_preserves_CacheInv E cache ih data v r

theorem Reachable_cacheAfter (E : Env) (data : Bytes) (v : AnyValue) (r : Regexp) (n : Nat)
    (c : Cache) (h : Reachable c) : Reachable (cacheAfter E data v r n c) := by
  induction n generalizing c with
  | zero => exact h
  | succ n ih => exact ih _ (Reachable.call E c data v r h)

/-- With caches that hold only built plans, the outcome of `Parse` and the target
afterwards do not depend on the cache. -/
theorem Parse_cache_independent (E : Env) (c1 c2 : Cache) (h1 : CacheInv c1)
    (h2 : CacheInv c2) (data : Bytes) (v : AnyValue) (r : Regexp) :
    (Parse E c1 data v r).1 = (Parse E c2 data v r).1 ∧
      (Parse E c1 data v r).2.1 = (Parse E c2 data v r).2.1 := by
  by_cases hk : v.Kind ≠ .Ptr
  · simp only [Parse, if_pos hk, and_self]
  · cases hv : v.Elem with
    | struct rt rv =>
      have hvp : v = .ptr (.struct rt rv) := by
        cases v <;> simp_all [AnyValue.Elem]
      subst hvp
      cases hn : newParser rt with
      | ok p =>
        rw [Parse_ptr_struct E c1 h1 rt p hn, Parse_ptr_struct E c2 h2 rt p hn]
        exact ⟨rfl, rfl⟩
      | error e =>
        have hl1 : c1.Load rt = none := by
          cases hl : c1.Load rt with
          | none => rfl
          | some q => have := h1 rt q hl; rw [hn] at this; cases this
        have hl2 : c2.Load rt = none := by
          cases hl : c2.Load rt with
          | none => rfl
          | some q => have := h2 rt q hl; rw [hn] at this; cases this
        simp [Parse, AnyValue.Kind, AnyValue.Elem, hl1, hl2, hn]
    | invalid => simp [Parse, if_neg hk, hv]
    | basic k => simp [Parse, if_neg hk, hv]
    | nilPtr => simp [Parse, if_neg hk, hv]
    | ptr e => simp [Parse, if_neg hk, hv]

/-- C14: in every plan-cache state reachable through calls of `Parse`, the entry under a
struct type is the plan `newParser` builds for it, a type whose build fails has no entry
and a call on such a type leaves the cache as it is; `Parse` returns the same outcome and
leaves the same target as with the empty cache, where the plan is built fresh; and after
any number of repeated calls with the same input, target and pattern the next call gives
the same outcome and target again. -/
theorem Parse_cache_reachable (c : Cache) (h : Reachable c) :
    (∀ rt p, c.Load rt = some p → newParser rt = .ok p) ∧
      (∀ rt e, newParser rt = .error e →
        c.Load rt = none ∧
        ∀ (E : Env) (data : Bytes) (rv : List Value) (r : Regexp),
          (Parse E c data (.ptr (.struct rt rv)) r).2.2 = c) ∧
      (∀ (E : Env) (data : Bytes) (v : AnyValue) (r : Regexp),
        (Parse E c data v r).1 = (Parse E [] data v r).1 ∧
        (Parse E c data v r).2.1 = (Parse E [] data v r).2.1) ∧
      (∀ (E : Env) (data : Bytes) (v : AnyValue) (r : Regexp) (n : Nat),
        (Parse E (cacheAfter E data v r n c) data v r).1 = (Parse E c data v r).1 ∧
        (Parse E (cacheAfter E data v r n c) data v r).2.1 = (Parse E c data v r).2.1) := by
  have hinv := Reachable_CacheInv c h
  refine ⟨hinv, ?_, ?_, ?_⟩
  · intro rt e hn
    have hl : c.Load rt = none := by
      cases hl : c.Load rt with
      | none => rfl
      | some q => have := hinv rt q hl; rw [hn] at this; cases this
    refine ⟨hl, ?_⟩
    intro E data rv r
    simp [Parse, AnyValue.Kind, AnyValue.Elem, hl, hn]
  · intro E data v r
    exact Parse_cache_independent E c [] hinv CacheInv_nil data v r
  · intro E data v r n
    exact Parse_cache_independent E _ c
      (Reachable_CacheInv _ (Reachable_cacheAfter E data v r n c h)) hinv data v r

/-- Witness for C14: the cache after the row `[foo, 3]` of `TestParse`. -/
theorem Parse_cache_reachable_witness :
    (Parse env64
        (Parse env64 [] (ascii "[foo, 3]")
          (.ptr (.struct stringInt [.str [], .str [], .int 0])) reStringInt).2.2
        (ascii "[foo, 3]") (.ptr (.struct stringInt [.str [], .str [], .int 0]))
        reStringInt).1 =
      (Parse env64 [] (ascii "[foo, 3]")
        (.ptr (.struct stringInt [.str [], .str [], .int 0])) reStringInt).1 :=
  ((Parse_cache_reachable _
    (Reachable.call env64 [] (ascii "[foo, 3]")
      (.ptr (.struct stringInt [.str [], .str [], .int 0])) reStringInt Reachable.empty)).2.2.1
    env64 (ascii "[foo, 3]") (.ptr (.struct stringInt [.str [], .str [], .int 0]))
    reStringInt).1

/-- Two calls on the row `[foo, 3]` of `TestParse`, the second with the plan from the
cache: the same outcome, the same target, and the cache holds the one plan. -/
theorem Parse_twice :
    Parse env64
        (Parse env64 [] (ascii "[foo, 3]")
          (.ptr (.struct stringInt [.str [], .str [], .int 0])) reStringInt).2.2
        (ascii "[foo, 3]") (.ptr (.struct stringInt [.str [], .str [], .int 0]))
        reStringInt =
      Parse env64 [] (ascii "[foo, 3]")
        (.ptr (.struct stringInt [.str [], .str [], .int 0])) reStringInt := by
  rfl

/-! ## The names of the plan -/

theorem lookup_isSome_cons (name k : String) (fp : fieldParser)
    (m : List (String × fieldParser)) :
    (List.lookup name ((k, fp) :: m)).isSome = true ↔
      name = k ∨ (List.lookup name m).isSome = true := by
  by_cases h : name = k
  · subst h
    simp [lookup_cons_self]
  · simp [lookup_cons_ne _ _ _ _ h, h]

/-- The loop of `newParser` leaves an entry under the name of every exported field it
meets and keeps the names that had an entry. -/
theorem newParserLoop_isSome (fs : List StructField) (i : Nat) (p q : parser)
    (name : String) (h : newParserLoop fs i p = .ok q)
    (hn : name ∈ exportedNames fs ∨ (p.byName.lookup name).isSome = true) :
    (q.byName.lookup name).isSome = true := by
  induction fs generalizing i p with
  | nil =>
    simp only [newParserLoop] at h
    cases h
    rcases hn with hn | hn
    · simp [exportedNames] at hn
    · exact hn
  | cons f fs ih =>
    rw [exportedNames_cons] at hn
    unfold newParserLoop at h
    by_cases hx : f.PkgPath = ""
    · rw [if_pos hx] at hn
      rw [if_neg (by simpa using hx)] at h
      cases hfp : newFieldParser i f with
      | error e => rw [hfp] at h; cases h
      | ok fp =>
        rw [hfp] at h
        simp only at h
        apply ih (i + 1) _ h
        rcases hn with hn | hn
        · rcases List.mem_cons.mp hn with rfl | hn
          · exact Or.inr ((lookup_isSome_cons _ _ _ _).mpr (Or.inl rfl))
          · exact Or.inl hn
        · exact Or.inr ((lookup_isSome_cons _ _ _ _).mpr (Or.inr hn))
    · rw [if_neg hx] at hn
      rw [if_pos hx] at h
      exact ih (i + 1) p h hn

/-- The loop of `newParser` succeeds when every exported field is of a supported type. -/
theorem newParserLoop_ok (fs : List StructField) (i : Nat) (p : parser)
    (h : ∀ f ∈ fs, f.PkgPath = "" → f.Typ.supported = true) :
    ∃ q, newParserLoop fs i p = .ok q := by
  induction fs generalizing i p with
  | nil => exact ⟨p, rfl⟩
  | cons f fs ih =>
    have hrest : ∀ g ∈ fs, g.PkgPath = "" → g.Typ.supported = true :=
      fun g hg => h g (List.mem_cons_of_mem _ hg)
    unfold newParserLoop
    by_cases hx : f.PkgPath = ""
    · rw [if_neg (by simpa using hx)]
      obtain ⟨fp, hfp⟩ := newFieldParser_of_supported i f (h f (List.mem_cons_self _ _) hx)
      rw [hfp]
      exact ih (i + 1) _ hrest
    · rw [if_pos hx]
      exact ih (i + 1) p hrest

theorem mem_exportedNames (fs : List StructField) (name : String) :
    name ∈ exportedNames fs ↔ ∃ f ∈ fs, f.PkgPath = "" ∧ f.Name = name := by
  simp [exportedNames, StructField.exported, and_assoc]

/-- C16: for a struct type on which `newParser` succeeds, the names that have an entry in
the plan are exactly the names of the exported fields; the entry under a name holds the
declaration index of an exported field of that name, an index below the number of
fields; the name of an unexported field has no entry unless an exported field bears it;
and every struct type whose exported fields are of supported types has a plan, whatever
the types of its unexported fields. -/
theorem newParser_plan_names (rt : StructType) (p : parser) (hp : newParser rt = .ok p) :
    (∀ name, (p.byName.lookup name).isSome = true ↔ name ∈ exportedNames rt.fields) ∧
      (∀ name fp, p.byName.lookup name = some fp →
        fp.i < rt.fields.length ∧
        ∃ f, rt.fields[fp.i]? = some f ∧ f.PkgPath = "" ∧ f.Name = name) ∧
      (∀ g ∈ rt.fields, g.PkgPath ≠ "" → g.Name ∉ exportedNames rt.fields →
        p.byName.lookup g.Name = none) ∧
      (∀ rt2 : StructType, (∀ f ∈ rt2.fields, f.PkgPath = "" → f.Typ.supported = true) →
        ∃ p2, newParser rt2 = .ok p2) := by
  have hsound : ∀ name fp, p.byName.lookup name = some fp →
      fp.i < rt.fields.length ∧
      ∃ f, rt.fields[fp.i]? = some f ∧ f.PkgPath = "" ∧ f.Name = name := by
    intro name fp hl
    obtain ⟨f, hf, hx, hn, _⟩ := newParser_sound rt p name fp hp hl
    exact ⟨(List.getElem?_eq_some.mp hf).1, f, hf, hx, hn⟩
  have hdom : ∀ name, (p.byName.lookup name).isSome = true ↔ name ∈ exportedNames rt.fields := by
    intro name
    constructor
    · intro hs
      obtain ⟨fp, hl⟩ := Option.isSome_iff_exists.mp hs
      obtain ⟨_, f, hf, hx, hn⟩ := hsound name fp hl
      exact (mem_exportedNames _ _).mpr ⟨f, List.getElem?_mem hf, hx, hn⟩
    · intro hm
      exact newParserLoop_isSome rt.fields 0 _ p name hp (Or.inl hm)
  refine ⟨hdom, hsound, ?_, ?_⟩
  · intro g _ _ hnot
    cases hl : p.byName.lookup g.Name with
    | none => rfl
    | some fp =>
      have := (hdom g.Name).mp (by rw [hl]; rfl)
      exact absurd this hnot
  · intro rt2 h2
    exact newParserLoop_ok rt2.fields 0 _ h2

/-- Witness for C16: the plan of `stringInt` has the names `S` and `I`, not `x`. -/
theorem newParser_plan_names_witness :
    (List.lookup "x"
        (parser.mk [("I", { i := 2, utyp := .notUnmarshaler,
                            typ := some (plainType "int" .Int) }),
          ("S", { i := 0, utyp := .notUnmarshaler,
                  typ := some (plainType "string" .String) })]).byName).isSome = true ↔
      "x" ∈ exportedNames stringInt.fields :=
  (newParser_plan_names stringInt
    { byName := [("I", { i := 2, utyp := .notUnmarshaler, typ := some (plainType "int" .Int) }),
        ("S", { i := 0, utyp := .notUnmarshaler, typ := some (plainType "string" .String) })] }
    rfl).1 "x"

/-- C20: every plan entry that `newParser` builds with a type for the built-in conversion
and that is neither a byte slice nor a string is of a signed or unsigned integer kind
whose bit width, the platform's `int` and `uint` included, is one of 8, 16, 32, 64: a key
of `minMaxIntVals`, resp. `maxUintVals`, with the bounds `[-2^(w-1), 2^(w-1) - 1]`, resp.
`2^w - 1`, never the zero bound of a missing key. -/
theorem accepted_integer_width (w : WordSize) (i : Nat) (f : StructField) (fp : fieldParser)
    (t : GoType) (hfp : newFieldParser i f = .ok fp) (ht : fp.typ = some t)
    (hk : t.kind ≠ .Slice ∧ t.kind ≠ .String) :
    t = f.Typ ∧ (isSignedInt t.kind = true ∨ isUnsignedInt t.kind = true) ∧
      t.kind.Bits w ∈ [8, 16, 32, 64] ∧
      (isSignedInt t.kind = true →
        minMaxIntVals (t.kind.Bits w) =
          (-(2 : Int) ^ (t.kind.Bits w - 1), (2 : Int) ^ (t.kind.Bits w - 1) - 1) ∧
        minMaxIntVals (t.kind.Bits w) ≠ (0, 0)) ∧
      (isUnsignedInt t.kind = true →
        maxUintVals (t.kind.Bits w) = 2 ^ (t.kind.Bits w) - 1 ∧
        maxUintVals (t.kind.Bits w) ≠ 0) := by
  have hshape : t = f.Typ ∧ (isSignedInt t.kind = true ∨ isUnsignedInt t.kind = true) := by
    cases h1 : f.Typ.implementsTU with
    | true =>
      rw [newFieldParser_val i f h1] at hfp
      cases hfp
      cases ht
    | false =>
      cases h2 : f.Typ.ptrImplementsTU with
      | true =>
        rw [newFieldParser_ptr i f h1 h2] at hfp
        cases hfp
        cases ht
      | false =>
        cases hs : f.Typ.supported with
        | false =>
          rw [newFieldParser_of_unsupported i f hs] at hfp
          cases hfp
        | true =>
          rw [newFieldParser_plain i f h1 h2 hs] at hfp
          cases hfp
          simp only [Option.some.injEq] at ht
          subst ht
          refine ⟨rfl, ?_⟩
          unfold GoType.supported at hs
          simp only [h1, h2, Bool.false_or, Bool.or_eq_true, Bool.and_eq_true, beq_iff_eq] at hs
          rcases hs with ((hs | hs) | hs) | hs
          · exact absurd hs.1 hk.1
          · exact absurd hs hk.2
          · exact Or.inl hs
          · exact Or.inr hs
  refine ⟨hshape.1, hshape.2, ?_, ?_, ?_⟩
  · rcases hshape.2 with h | h <;> cases w <;> cases hk1 : t.kind <;>
      simp [isSignedInt, isUnsignedInt, hk1] at h <;>
      simp [Kind.Bits, WordSize.IntSize]
  · intro hs
    refine ⟨minMaxIntVals_bits w t.kind hs, ?_⟩
    cases w <;> cases hk1 : t.kind <;> simp [isSignedInt, hk1] at hs <;>
      simp [Kind.Bits, WordSize.IntSize, minMaxIntVals]
  · intro hu
    refine ⟨maxUintVals_bits w t.kind hu, ?_⟩
    cases w <;> cases hk1 : t.kind <;> simp [isUnsignedInt, hk1] at hu <;>
      simp [Kind.Bits, WordSize.IntSize, maxUintVals]

/-- Witness for C20: the field `I int` on a 32-bit platform. -/
theorem accepted_integer_width_witness :
    plainType "int" .Int = (exportedField "I" (plainType "int" .Int)).Typ ∧
      (isSignedInt (plainType "int" .Int).kind = true ∨
        isUnsignedInt (plainType "int" .Int).kind = true) ∧
      (plainType "int" .Int).kind.Bits .w32 ∈ [8, 16, 32, 64] ∧
      (isSignedInt (plainType "int" .Int).kind = true →
        minMaxIntVals ((plainType "int" .Int).kind.Bits .w32) =
          (-(2 : Int) ^ ((plainType "int" .Int).kind.Bits .w32 - 1),
            (2 : Int) ^ ((plainType "int" .Int).kind.Bits .w32 - 1) - 1) ∧
        minMaxIntVals ((plainType "int" .Int).kind.Bits .w32) ≠ (0, 0)) ∧
      (isUnsignedInt (plainType "int" .Int).kind = true →
        maxUintVals ((plainType "int" .Int).kind.Bits .w32) =
          2 ^ ((plainType "int" .Int).kind.Bits .w32) - 1 ∧
        maxUintVals ((plainType "int" .Int).kind.Bits .w32) ≠ 0) :=
  accepted_integer_width .w32 2 (exportedField "I" (plainType "int" .Int))
    { i := 2, utyp := .notUnmarshaler, typ := some (plainType "int" .Int) }
    (plainType "int" .Int) rfl rfl (by decide)

end Hasty
